import Mathlib

/-!
Shallow embedding of the google-sheets-mcp data engine
(src/src/tools/data_operations.py, src/src/tools/column_operations.py,
src/mcp_google_sheets/server.py `decode_json`).

Cell values are the tagged variant {null, boolean, number, string} plus the
signed infinities that pandas/numpy division by zero produces.  pandas
represents null cells as float NaN; the model identifies the two (as the
wire format does: `to_json` writes both NaN and +-inf as JSON null).
Numbers are modelled as exact rationals; the model is dtype-free (a cell
holds the JSON value that was read, so an integral number prints without a
trailing `.0`).
-/

namespace GS

inductive Value where
  | null
  | bool (b : Bool)
  | num (q : ℚ)
  | inf (isNeg : Bool)
  | str (s : String)
deriving DecidableEq

/-- Error kinds of §7 of the spec; every `raise ValueError(...)` in the
source is mapped to the abstract kind its message denotes. -/
inductive Err where
  | columnNotFound (cols : List String)
  | columnAlreadyExists (name : String)
  | rowNotFound
  | invalidArgument (msg : String)
  | unsupportedOperation (name : String)
  | typeMismatch
  | decodeError
  | indexError
deriving DecidableEq

/-- The in-memory table: pandas DataFrame with its column labels, its row
index labels (int64 labels, significant because `to_json` serializes them
and `read_json` trusts them) and the cell grid in row-major order. -/
structure DataFrame where
  columns : List String
  index : List Int
  data : List (List Value)
deriving DecidableEq

/-- `params` dict of the column operations; absent keys are `none`.
Field `prefixStr`/`suffixStr` model the source's 'prefix'/'suffix' keys. -/
structure Params where
  separator : Option String
  prefixStr : Option String
  suffixStr : Option String
  format_string : Option String
  decimals : Option Int
  format : Option String
deriving DecidableEq

def noParams : Params := ⟨none, none, none, none, none, none⟩

instance {ε α : Type} [DecidableEq ε] [DecidableEq α] : DecidableEq (Except ε α) :=
  fun a b =>
  match a, b with
  | .ok x, .ok y => decidable_of_iff (x = y) (by simp)
  | .error e, .error f => decidable_of_iff (e = f) (by simp)
  | .ok _, .error _ => isFalse (by simp)
  | .error _, .ok _ => isFalse (by simp)

/-- First index of a column label, `df.columns.get_loc`. -/
def idxOf? : List String → String → Option Nat
  | [], _ => none
  | c :: t, x => if c = x then some 0 else (idxOf? t x).map (· + 1)

def cellAt (df : DataFrame) (row : List Value) (c : String) : Value :=
  match idxOf? df.columns c with
  | some j => row.getD j .null
  | none => .null

/-- numpy numeric view: booleans coerce to 0/1 in arithmetic and `==`. -/
def asNumQ : Value → Option ℚ
  | .num q => some q
  | .bool b => some (if b then 1 else 0)
  | _ => none

/-- Elementwise `df[col] == value` equality of pandas: NaN compares unequal
to everything (including NaN), numbers and booleans compare numerically,
strings compare as strings, no cross-kind coercion otherwise. -/
def pandasEq (v w : Value) : Bool :=
  match v, w with
  | .null, _ => false
  | _, .null => false
  | .str a, .str b => a == b
  | .str _, _ => false
  | _, .str _ => false
  | .inf a, .inf b => a == b
  | .inf _, _ => false
  | _, .inf _ => false
  | v, w => (asNumQ v).getD 0 == (asNumQ w).getD 0

/-- numpy `+` on two cell values (object-dtype reduction step of
`DataFrame.sum(axis=1)`): strings concatenate, a string mixed with a
number raises TypeError, NaN propagates, infinities follow IEEE signs. -/
def pandasAdd (v w : Value) : Except Err Value :=
  match v, w with
  | .str a, .str b => .ok (.str (a ++ b))
  | .str _, _ => .error .typeMismatch
  | _, .str _ => .error .typeMismatch
  | .null, _ => .ok .null
  | _, .null => .ok .null
  | .inf a, .inf b => if a == b then .ok (.inf a) else .ok .null
  | .inf a, _ => .ok (.inf a)
  | _, .inf b => .ok (.inf b)
  | v, w => .ok (.num ((asNumQ v).getD 0 + (asNumQ w).getD 0))

/-- numpy `*` on two cell values.  (Python's string-repetition for an
integer multiplier is not modelled; no operation of the claims reaches
it.) -/
def pandasMul (v w : Value) : Except Err Value :=
  match v, w with
  | .str _, _ => .error .typeMismatch
  | _, .str _ => .error .typeMismatch
  | .null, _ => .ok .null
  | _, .null => .ok .null
  | .inf a, .inf b => .ok (.inf (a != b))
  | .inf a, w =>
    let q := (asNumQ w).getD 0
    if q = 0 then .ok .null else if q < 0 then .ok (.inf (!a)) else .ok (.inf a)
  | v, .inf b =>
    let q := (asNumQ v).getD 0
    if q = 0 then .ok .null else if q < 0 then .ok (.inf (!b)) else .ok (.inf b)
  | v, w => .ok (.num ((asNumQ v).getD 0 * (asNumQ w).getD 0))

/-- numpy `-` on two cell values (boolean subtract is rejected by numpy). -/
def pandasSub (v w : Value) : Except Err Value :=
  match v, w with
  | .str _, _ => .error .typeMismatch
  | _, .str _ => .error .typeMismatch
  | .bool _, .bool _ => .error .typeMismatch
  | .null, _ => .ok .null
  | _, .null => .ok .null
  | .inf a, .inf b => if a == b then .ok .null else .ok (.inf a)
  | .inf a, _ => .ok (.inf a)
  | _, .inf b => .ok (.inf (!b))
  | v, w => .ok (.num ((asNumQ v).getD 0 - (asNumQ w).getD 0))

/-- numpy true division on two cell values: x/0 is +-inf by the sign of x,
0/0 is NaN, nothing raises on a zero denominator. -/
def pandasDiv (v w : Value) : Except Err Value :=
  match v, w with
  | .str _, _ => .error .typeMismatch
  | _, .str _ => .error .typeMismatch
  | .null, _ => .ok .null
  | _, .null => .ok .null
  | .inf _, .inf _ => .ok .null
  | .inf a, w =>
    if (asNumQ w).getD 0 < 0 then .ok (.inf (!a)) else .ok (.inf a)
  | _, .inf _ => .ok (.num 0)
  | v, w =>
    let qa := (asNumQ v).getD 0
    let qb := (asNumQ w).getD 0
    if qb = 0 then
      if 0 < qa then .ok (.inf false)
      else if qa < 0 then .ok (.inf true)
      else .ok .null
    else .ok (.num (qa / qb))

def dropNulls (vs : List Value) : List Value :=
  vs.filter (fun v => match v with | .null => false | _ => true)

/-- Row-wise `DataFrame.sum(axis=1)` with the default `skipna=True`:
NaN entries are skipped, the empty sum is 0, the rest reduce with `+`. -/
def rowSum (vs : List Value) : Except Err Value :=
  match dropNulls vs with
  | [] => .ok (.num 0)
  | v :: rest => rest.foldlM pandasAdd v

/-- Row-wise `DataFrame.prod(axis=1)` with the default `skipna=True`. -/
def rowProd (vs : List Value) : Except Err Value :=
  match dropNulls vs with
  | [] => .ok (.num 1)
  | v :: rest => rest.foldlM pandasMul v

/-! ### Decimal rendering of numbers

`to_json` and `astype(str)` print numbers in plain decimal notation.
Rendering is exact for every rational whose denominator divides `10 ^ 10`
(pandas serializes doubles with `double_precision=10`, so only such values
survive the wire anyway); `numRep` below is the representability predicate
of the round-trip law. -/

def digitChar (k : Nat) : Char := Char.ofNat (48 + k)

def charVal (c : Char) : Nat := c.toNat - 48

def isDigit (c : Char) : Bool := 48 ≤ c.toNat && c.toNat ≤ 57

def natDigsAux : Nat → Nat → List Char → List Char
  | 0, n, acc => digitChar n :: acc
  | fuel + 1, n, acc =>
    if n < 10 then digitChar n :: acc
    else natDigsAux fuel (n / 10) (digitChar (n % 10) :: acc)

/-- Decimal digits of a natural number, most significant first. -/
def natDigs (n : Nat) : List Char := natDigsAux n n []

/-- Integer part of a nonnegative rational, as a natural number. -/
def qIntPart (q : ℚ) : Nat := q.num.toNat / q.den

/-- Decimal digits of the fractional part `q ∈ [0,1)`, stopping at zero
remainder or after `fuel` digits. -/
def fracDigs : Nat → ℚ → List Char
  | 0, _ => []
  | fuel + 1, q =>
    if q = 0 then []
    else
      digitChar (qIntPart (q * 10)) ::
        fracDigs fuel (q * 10 - (qIntPart (q * 10) : ℚ))

/-- Plain decimal rendering of a rational (exact when the denominator
divides `10 ^ 10`): optional minus sign, integer part, then a fractional
part when it is nonzero. -/
def renderQNonneg (a : ℚ) : List Char :=
  natDigs (qIntPart a) ++
    (if a - (qIntPart a : ℚ) = 0 then []
     else '.' :: fracDigs 10 (a - (qIntPart a : ℚ)))

def renderQ (q : ℚ) : List Char :=
  if q < 0 then '-' :: renderQNonneg (-q) else renderQNonneg q

def renderInt (i : Int) : List Char := renderQ (i : ℚ)

/-- Python `str()` of a cell value as pandas `astype(str)` sees it: a null
cell is float NaN and stringifies to "nan". -/
def pyStr : Value → String
  | .null => "nan"
  | .bool true => "True"
  | .bool false => "False"
  | .num q => String.mk (renderQ q)
  | .inf true => "-inf"
  | .inf false => "inf"
  | .str s => s

def strUpper (s : String) : String := String.mk (s.data.map Char.toUpper)

def strLower (s : String) : String := String.mk (s.data.map Char.toLower)

/-- Floor of a rational of any sign. -/
def qFloorZ (q : ℚ) : ℤ := Int.fdiv q.num (q.den : ℤ)

/-- numpy's round-half-to-even. -/
def roundHalfEven (q : ℚ) : ℤ :=
  let f := qFloorZ q
  let r := q - (f : ℚ)
  if r < 1 / 2 then f
  else if 1 / 2 < r then f + 1
  else if f % 2 = 0 then f else f + 1

/-- `Series.round(decimals)`: NaN and infinities pass through, strings and
booleans raise. -/
def pandasRound (d : Int) : Value → Except Err Value
  | .num q => .ok (.num ((roundHalfEven (q * (10 : ℚ) ^ d) : ℚ) / (10 : ℚ) ^ d))
  | .null => .ok .null
  | .inf b => .ok (.inf b)
  | _ => .error .typeMismatch

/-! ### Column operations (src/src/tools/column_operations.py) -/

/-- Python `"...".format(*args)` restricted to the auto-numbered
placeholder `\x7b\x7d`; running out of arguments raises IndexError. -/
def pyFormat : List Char → List String → Except Err (List Char)
  | [], _ => .ok []
  | '\x7b' :: '\x7d' :: t, args =>
    match args with
    | [] => .error .indexError
    | a :: rest => (pyFormat t rest).map (fun cs => a.data ++ cs)
  | c :: t, args => (pyFormat t args).map (fun cs => c :: cs)

def refValues (df : DataFrame) (reference_columns : List String) (row : List Value) :
    List Value :=
  reference_columns.map (fun c => cellAt df row c)

def withNewColumn (df : DataFrame) (new_column_name : String)
    (f : List Value → Except Err Value) (reference_columns : List String) :
    Except Err DataFrame :=
  (df.data.mapM (fun row =>
      (f (refValues df reference_columns row)).map (fun v => row ++ [v]))).map
    (fun d => ⟨df.columns ++ [new_column_name], df.index, d⟩)

/-- `add_column` of column_operations.py. -/
def add_column (df : DataFrame) (new_column_name : String) (formula : String)
    (reference_columns : List String) (params : Params) : Except Err DataFrame :=
  if !(reference_columns.all (fun c => df.columns.contains c)) then
    .error (.columnNotFound (reference_columns.filter (fun c => !(df.columns.contains c))))
  else if df.columns.contains new_column_name then
    .error (.columnAlreadyExists new_column_name)
  else if formula == "concat" then
    let sep := params.separator.getD " "
    let pre := params.prefixStr.getD ""
    let suf := params.suffixStr.getD ""
    let joined : List Value → Except Err Value := fun vs =>
      .ok (.str (pre ++ String.intercalate sep (vs.map pyStr) ++ suf))
    match params.format_string with
    | some fs =>
      if fs.isEmpty then withNewColumn df new_column_name joined reference_columns
      else
        withNewColumn df new_column_name
          (fun vs => (pyFormat fs.data (vs.map pyStr)).map (fun cs => .str (String.mk cs)))
          reference_columns
    | none => withNewColumn df new_column_name joined reference_columns
  else if formula == "sum" then
    withNewColumn df new_column_name rowSum reference_columns
  else if formula == "multiply" then
    withNewColumn df new_column_name rowProd reference_columns
  else if formula == "divide" then
    if reference_columns.length != 2 then
      .error (.invalidArgument "Division requires exactly 2 reference columns")
    else
      withNewColumn df new_column_name
        (fun vs => pandasDiv (vs.getD 0 .null) (vs.getD 1 .null)) reference_columns
  else if formula == "subtract" then
    if reference_columns.length != 2 then
      .error (.invalidArgument "Subtraction requires exactly 2 reference columns")
    else
      withNewColumn df new_column_name
        (fun vs => pandasSub (vs.getD 0 .null) (vs.getD 1 .null)) reference_columns
  else .error (.unsupportedOperation formula)

/-- `rename_column` of column_operations.py. -/
def rename_column (df : DataFrame) (old_name new_name : String) : Except Err DataFrame :=
  if !(df.columns.contains old_name) then .error (.columnNotFound [old_name])
  else if df.columns.contains new_name then .error (.columnAlreadyExists new_name)
  else
    .ok ⟨df.columns.map (fun c => if c == old_name then new_name else c),
      df.index, df.data⟩

/-- `transform_column` of column_operations.py.  The external date library
(`pd.to_datetime(...).dt.strftime(fmt)`) is a passed-in collaborator
`toDatetime`, per §1 of the spec; no recognized branch other than
format_date consults it. -/
def transform_column (toDatetime : String → Value → Except Err String)
    (df : DataFrame) (column_name : String) (transformation : String)
    (params : Params) : Except Err DataFrame :=
  if !(df.columns.contains column_name) then .error (.columnNotFound [column_name])
  else
    let j := (idxOf? df.columns column_name).getD 0
    let mapCol : (Value → Except Err Value) → Except Err DataFrame := fun f =>
      (df.data.mapM (fun row => (f (row.getD j .null)).map (fun v => row.set j v))).map
        (fun d => ⟨df.columns, df.index, d⟩)
    if transformation == "uppercase" then
      mapCol (fun v => .ok (.str (strUpper (pyStr v))))
    else if transformation == "lowercase" then
      mapCol (fun v => .ok (.str (strLower (pyStr v))))
    else if transformation == "round" then
      mapCol (pandasRound (params.decimals.getD 0))
    else if transformation == "format_date" then
      let fmt := params.format.getD "%Y-%m-%d"
      mapCol (fun v => (toDatetime fmt v).map Value.str)
    else .error (.unsupportedOperation transformation)

/-! ### Row operations (src/src/tools/data_operations.py) -/

/-- The match mask `mask &= (df[col] == value)` of edit/delete. -/
def rowMatches (df : DataFrame) (row_identifier : List (String × Value))
    (row : List Value) : Bool :=
  row_identifier.all (fun p => pandasEq (cellAt df row p.1) p.2)

def invalidCols (df : DataFrame) (keys : List String) : List String :=
  keys.filter (fun c => !(df.columns.contains c))

/-- Core of `add_data` after `pd.read_json`: validate the keys, then
`pd.concat([df, pd.DataFrame([row_data])], ignore_index=True)` — the new
record takes the given values, null for omitted columns, and
`ignore_index` renumbers the index 0..N. -/
def addDataCore (df : DataFrame) (row_data : List (String × Value)) :
    Except Err DataFrame :=
  if !((row_data.map Prod.fst).all (fun c => df.columns.contains c)) then
    .error (.columnNotFound (invalidCols df (row_data.map Prod.fst)))
  else
    let newRow := df.columns.map (fun c => (row_data.lookup c).getD .null)
    .ok ⟨df.columns, (List.range (df.data.length + 1)).map Int.ofNat,
      df.data ++ [newRow]⟩

def applyUpdates (df : DataFrame) (updated_data : List (String × Value))
    (row : List Value) : List Value :=
  updated_data.foldl (fun r p => r.set ((idxOf? df.columns p.1).getD 0) p.2) row

/-- Core of `edit_data` after `pd.read_json`: validate identifier and
update keys, build the mask, raise if nothing matches, then
`df.loc[mask, field] = value` for each updated field. -/
def editDataCore (df : DataFrame) (row_identifier updated_data : List (String × Value)) :
    Except Err DataFrame :=
  if !((row_identifier.map Prod.fst).all (fun c => df.columns.contains c)) then
    .error (.columnNotFound (invalidCols df (row_identifier.map Prod.fst)))
  else if !((updated_data.map Prod.fst).all (fun c => df.columns.contains c)) then
    .error (.columnNotFound (invalidCols df (updated_data.map Prod.fst)))
  else if !(df.data.any (rowMatches df row_identifier)) then .error .rowNotFound
  else
    .ok ⟨df.columns, df.index,
      df.data.map (fun row =>
        if rowMatches df row_identifier row then applyUpdates df updated_data row
        else row)⟩

/-- Core of `delete_data` after `pd.read_json`: validate the keys, build
the mask, raise if nothing matches, then `df = df[~mask]` — the surviving
rows keep their original index labels. -/
def deleteDataCore (df : DataFrame) (row_identifier : List (String × Value)) :
    Except Err DataFrame :=
  if !((row_identifier.map Prod.fst).all (fun c => df.columns.contains c)) then
    .error (.columnNotFound (invalidCols df (row_identifier.map Prod.fst)))
  else if !(df.data.any (rowMatches df row_identifier)) then .error .rowNotFound
  else
    let kept := (df.index.zip df.data).filter
      (fun p => !(rowMatches df row_identifier p.2))
    .ok ⟨df.columns, kept.map Prod.fst, kept.map Prod.snd⟩

/-! ### The wire format (`to_json(orient='split')` / `read_json(orient='split')`)

The encoder prints the compact split-JSON object exactly as pandas does:
`\x7b"columns":[...],"index":[...],"data":[[...],...]\x7d` with no
whitespace; NaN and the infinities print as `null`, strings escape
quote, backslash and (as ujson does) the forward slash.  The parser
accepts that canonical grammar.  Strings are restricted to printable
ASCII (`chRep`); the `\uXXXX` escapes pandas uses beyond that range are
not modelled. -/

def chRep (c : Char) : Bool := 32 ≤ c.toNat && c.toNat ≤ 126

def strRep (s : String) : Bool := s.data.all chRep

/-- JSON-representable number: survives pandas' `double_precision=10`
decimal printing exactly, i.e. the denominator divides `10 ^ 10`. -/
def numRep (q : ℚ) : Bool := (q * (10 : ℚ) ^ (10 : ℕ)).den == 1

def valRep : Value → Bool
  | .null => true
  | .bool _ => true
  | .num q => numRep q
  | .inf _ => false
  | .str s => strRep s

/-- All labels and cells of the table are JSON-representable. -/
def dfRep (df : DataFrame) : Bool :=
  df.columns.all strRep && df.data.all (fun r => r.all valRep)

def escC (c : Char) : List Char :=
  if c = '"' then ['\\', '"']
  else if c = '\\' then ['\\', '\\']
  else if c = '/' then ['\\', '/']
  else [c]

def escL (l : List Char) : List Char := l.foldr (fun c acc => escC c ++ acc) []

def renderJStr (s : String) : List Char := '"' :: escL s.data ++ ['"']

def renderValue : Value → List Char
  | .null => "null".data
  | .bool true => "true".data
  | .bool false => "false".data
  | .num q => renderQ q
  | .inf _ => "null".data
  | .str s => renderJStr s

def renderSep {α : Type} (f : α → List Char) : List α → List Char
  | [] => []
  | [a] => f a
  | a :: rest => f a ++ ',' :: renderSep f rest

def renderList {α : Type} (f : α → List Char) (xs : List α) : List Char :=
  '[' :: renderSep f xs ++ [']']

def litHead : List Char := '\x7b' :: "\"columns\":".data

def litIndex : List Char := ",\"index\":".data

def litData : List Char := ",\"data\":".data

def litEnd : List Char := ['\x7d']

def renderChars (df : DataFrame) : List Char :=
  litHead ++ renderList renderJStr df.columns ++
  litIndex ++ renderList renderInt df.index ++
  litData ++ renderList (renderList renderValue) df.data ++ litEnd

/-- `df.to_json(orient='split')`. -/
def to_json (df : DataFrame) : String := String.mk (renderChars df)

def expectLit : List Char → List Char → Option (List Char)
  | [], cs => some cs
  | _ :: _, [] => none
  | l :: ls, c :: cs => if c = l then expectLit ls cs else none

def takeDigits : List Char → List Char × List Char
  | [] => ([], [])
  | c :: t =>
    if isDigit c then
      let p := takeDigits t
      (c :: p.1, p.2)
    else ([], c :: t)

def digitsToNat (ds : List Char) : Nat := ds.foldl (fun a c => 10 * a + charVal c) 0

def parseUnsigned (cs : List Char) : Option (ℚ × List Char) :=
  let p := takeDigits cs
  if p.1.isEmpty then none
  else
    let ip : ℚ := (digitsToNat p.1 : ℚ)
    if p.2.head? = some '.' then
      let f := takeDigits p.2.tail
      if f.1.isEmpty then none
      else some (ip + (digitsToNat f.1 : ℚ) / (10 : ℚ) ^ f.1.length, f.2)
    else some (ip, p.2)

def parseNumTok (cs : List Char) : Option (ℚ × List Char) :=
  if cs.head? = some '-' then (parseUnsigned cs.tail).map (fun p => (-p.1, p.2))
  else parseUnsigned cs

def unesc (c : Char) : Option Char :=
  if c = '"' then some '"'
  else if c = '\\' then some '\\'
  else if c = '/' then some '/'
  else none

def parseStrAux : List Char → Option (List Char × List Char)
  | [] => none
  | ['\\'] => none
  | '\\' :: e :: t2 =>
    match unesc e with
    | some u => (parseStrAux t2).map (fun p => (u :: p.1, p.2))
    | none => none
  | c :: t =>
    if c = '"' then some ([], t)
    else (parseStrAux t).map (fun p => (c :: p.1, p.2))

def parseJStr (cs : List Char) : Option (String × List Char) :=
  match cs with
  | '"' :: t => (parseStrAux t).map (fun p => (String.mk p.1, p.2))
  | _ => none

def parseJInt (cs : List Char) : Option (Int × List Char) :=
  (parseNumTok cs).bind (fun p => if p.1.den = 1 then some (p.1.num, p.2) else none)

def parseValue (cs : List Char) : Option (Value × List Char) :=
  match cs with
  | [] => none
  | c :: t =>
    if c = 'n' then (expectLit ['u', 'l', 'l'] t).map (fun r => (.null, r))
    else if c = 't' then (expectLit ['r', 'u', 'e'] t).map (fun r => (.bool true, r))
    else if c = 'f' then (expectLit ['a', 'l', 's', 'e'] t).map (fun r => (.bool false, r))
    else if c = '"' then (parseStrAux t).map (fun p => (.str (String.mk p.1), p.2))
    else (parseNumTok (c :: t)).map (fun p => (.num p.1, p.2))

def parseElems {α : Type} (p : List Char → Option (α × List Char)) :
    Nat → List Char → Option (List α × List Char)
  | 0, _ => none
  | fuel + 1, cs =>
    match p cs with
    | none => none
    | some (a, rest) =>
      match rest with
      | ',' :: r2 => (parseElems p fuel r2).map (fun q => (a :: q.1, q.2))
      | ']' :: r2 => some ([a], r2)
      | _ => none

def parseListOf {α : Type} (p : List Char → Option (α × List Char)) (fuel : Nat)
    (cs : List Char) : Option (List α × List Char) :=
  match cs with
  | '[' :: t => if t.head? = some ']' then some ([], t.tail) else parseElems p fuel t
  | _ => none

def parseSplitF (fuel : Nat) (cs : List Char) : Option DataFrame :=
  (expectLit litHead cs).bind fun r1 =>
  (parseListOf parseJStr fuel r1).bind fun p1 =>
  (expectLit litIndex p1.2).bind fun r2 =>
  (parseListOf parseJInt fuel r2).bind fun p2 =>
  (expectLit litData p2.2).bind fun r3 =>
  (parseListOf (parseListOf parseValue fuel) fuel r3).bind fun p3 =>
  (expectLit litEnd p3.2).bind fun r4 =>
  if r4.isEmpty then some ⟨p1.1, p2.1, p3.1⟩ else none

/-- The split-JSON grammar `pd.read_json(..., orient='split')` consumes,
as produced by `to_json`. -/
def parseSplit (cs : List Char) : Option DataFrame :=
  parseSplitF (cs.length + 1) cs

/-- `pd.read_json(s, orient='split')`; parse failure raises. -/
def read_json (s : String) : Option DataFrame := parseSplit s.data

/-- Python's `s.replace(ab, c)` for a two-character pattern: global,
left-to-right, non-overlapping. -/
def replace2 (a b c : Char) : List Char → List Char
  | [] => []
  | [x] => [x]
  | x :: y :: t =>
    if x = a ∧ y = b then c :: replace2 a b c t
    else x :: replace2 a b c (y :: t)

/-- `json_str[1:-1]` when the text starts and ends with a quote. -/
def stripQuotes (cs : List Char) : List Char :=
  if cs.head? = some '"' && cs.getLast? = some '"' then (cs.drop 1).dropLast
  else cs

/-- The recovery pass of `decode_json`:
`json_str.replace('\\"', '"').replace('\\\\', '\\')` then stripping one
layer of wrapping quotes when present. -/
def unescapeStrip (cs : List Char) : List Char :=
  stripQuotes (replace2 '\\' '\\' '\\' (replace2 '\\' '"' '"' cs))

/-- `GoogleSheetsMCPServer.decode_json`: try a direct `read_json`; on
failure un-escape, strip one quote layer, and retry exactly once. -/
def decode_json (s : String) : Except Err DataFrame :=
  match parseSplit s.data with
  | some df => .ok df
  | none =>
    match parseSplit (unescapeStrip s.data) with
    | some df => .ok df
    | none => .error .decodeError

/-- One layer of JSON-string escaping of a whole wire text plus wrapping
quotes: the "double-encoded" artifact the tolerant decoder recovers from. -/
def escQ (c : Char) : List Char :=
  if c = '"' then ['\\', '"'] else if c = '\\' then ['\\', '\\'] else [c]

def escQL (l : List Char) : List Char := l.foldr (fun c acc => escQ c ++ acc) []

def quoteWrap (s : String) : String := String.mk ('"' :: escQL s.data ++ ['"'])

/-! ### String-level row operations (`add_data`, `edit_data`,
`delete_data` take and return wire text). -/

def add_data (df_json : String) (row_data : List (String × Value)) :
    Except Err String :=
  match read_json df_json with
  | none => .error .decodeError
  | some df => (addDataCore df row_data).map to_json

def edit_data (df_json : String) (row_identifier updated_data : List (String × Value)) :
    Except Err String :=
  match read_json df_json with
  | none => .error .decodeError
  | some df => (editDataCore df row_identifier updated_data).map to_json

def delete_data (df_json : String) (row_identifier : List (String × Value)) :
    Except Err String :=
  match read_json df_json with
  | none => .error .decodeError
  | some df => (deleteDataCore df row_identifier).map to_json

/-- A character list on which a number token stops: empty, or headed by a
non-digit that is not a decimal point. -/
def numDelim (rest : List Char) : Bool :=
  match rest with
  | [] => true
  | c :: _ => !(isDigit c) && !(c == '.')

/-- Well-formedness of a DataFrame: every record has one cell per column,
one index label per record, and column names are unique (I1/I2 of §3). -/
def nodupB : List String → Bool
  | [] => true
  | c :: t => !(t.contains c) && nodupB t

def dfWF (df : DataFrame) : Bool :=
  df.data.all (fun r => r.length == df.columns.length)
    && (df.index.length == df.data.length) && nodupB df.columns

def isNumV : Value → Bool
  | .num _ => true
  | _ => false

def isNullOrNum : Value → Bool
  | .null => true
  | .num _ => true
  | _ => false

/-- The numeric contribution of a cell to `sum(axis=1)`: a skipped NaN
contributes 0. -/
def numOrZero : Value → ℚ
  | .num q => q
  | _ => 0

/-- The value numpy gives `qa / 0`. -/
def divValue (qa : ℚ) : Value :=
  if 0 < qa then .inf false else if qa < 0 then .inf true else .null

/-! ### Concrete tables used to instantiate the claims -/

/-- A concrete external date collaborator (never consulted by the claims). -/
def tdNone : String → Value → Except Err String := fun _ _ => .error .typeMismatch

def dfW1 : DataFrame :=
  ⟨["id", "name", "ok"], [0, 1],
   [[.num 1, .str "a\"b", .bool true], [.num (5 / 2), .null, .bool false]]⟩

def dfW2 : DataFrame :=
  ⟨["id", "s"], [0, 1, 2], [[.num 1, .num 10], [.num 2, .num 20], [.num 2, .num 30]]⟩

def identW2 : List (String × Value) := [("id", Value.num 2)]

def updW2 : List (String × Value) := [("s", Value.num 99)]

def dfW3 : DataFrame := ⟨["x", "n"], [0], [[.str "p/q", .num 7]]⟩

def dfC4 : DataFrame := ⟨["id"], [0, 1], [[.num 1], [.num 2]]⟩

def dfW4 : DataFrame :=
  ⟨["id", "v"], [0, 1, 2], [[.num 1, .str "a"], [.num 2, .str "b"], [.num 1, .str "c"]]⟩

def identW4 : List (String × Value) := [("id", Value.num 1)]

def dfW5 : DataFrame := ⟨["a", "b"], [0], [[.num 10, .num 0]]⟩

def dfC6 : DataFrame := ⟨["name"], [0], [[.str "john doe"]]⟩

def dfW6 : DataFrame := ⟨["name"], [0], [[.str "x"]]⟩

def dfC7 : DataFrame := ⟨["a", "b"], [0], [[.null, .null]]⟩

def dfW7 : DataFrame := ⟨["a", "b"], [0, 1], [[.null, .num 5], [.num 2, .num 3]]⟩

def dfC8 : DataFrame := ⟨["a", "b"], [0], [[.num 1, .num 2]]⟩

def dfW8 : DataFrame := ⟨["a", "b"], [0], [[.num 1, .num 2]]⟩

def dfW9 : DataFrame :=
  ⟨["id", "name", "score"], [0, 1],
   [[.num 1, .str "a", .num 10], [.num 2, .str "b", .num 20]]⟩

def rowW9 : List (String × Value) := [("id", Value.num 3), ("score", Value.num 30)]

def dfW10 : DataFrame := ⟨["a"], [0, 1], [[.null], [.str "hi"]]⟩

/-! ## Round-trip lemmas: digits and numbers -/

theorem isEmpty_false_of_ne_nil {α : Type} {l : List α} (h : l ≠ []) :
    l.isEmpty = false := by
  cases l with
  | nil => exact absurd rfl h
  | cons a t => rfl

theorem isDigit_digitChar (k : Nat) (h : k < 10) : isDigit (digitChar k) = true := by
  interval_cases k <;> decide

theorem charVal_digitChar (k : Nat) (h : k < 10) : charVal (digitChar k) = k := by
  interval_cases k <;> decide

theorem ne_of_isDigit {c x : Char} (h : isDigit c = true) (hx : isDigit x = false) :
    c ≠ x := by
  intro e
  rw [e, hx] at h
  exact Bool.false_ne_true h

theorem natDigsAux_acc : ∀ (fuel n : Nat) (acc : List Char),
    natDigsAux fuel n acc = natDigsAux fuel n [] ++ acc := by
  intro fuel
  induction fuel with
  | zero => intro n acc; simp [natDigsAux]
  | succ f ih =>
    intro n acc
    by_cases h : n < 10
    · simp [natDigsAux, h]
    · simp only [natDigsAux, if_neg h]
      rw [ih (n / 10) (digitChar (n % 10) :: acc), ih (n / 10) [digitChar (n % 10)]]
      simp

theorem digitsToNat_shift (ds : List Char) : ∀ a : Nat,
    ds.foldl (fun x c => 10 * x + charVal c) a = a * 10 ^ ds.length + digitsToNat ds := by
  induction ds with
  | nil => intro a; simp [digitsToNat]
  | cons c t ih =>
    intro a
    have h2 : digitsToNat (c :: t) = (10 * 0 + charVal c) * 10 ^ t.length + digitsToNat t := by
      simp only [digitsToNat, List.foldl_cons]
      exact ih (10 * 0 + charVal c)
    simp only [List.foldl_cons, List.length_cons]
    rw [ih (10 * a + charVal c), h2]
    ring

theorem digitsToNat_cons (c : Char) (ds : List Char) :
    digitsToNat (c :: ds) = charVal c * 10 ^ ds.length + digitsToNat ds := by
  simp only [digitsToNat, List.foldl_cons]
  rw [digitsToNat_shift]
  ring_nf
  simp [digitsToNat]

theorem digitsToNat_append_digit (ds : List Char) (c : Char) :
    digitsToNat (ds ++ [c]) = 10 * digitsToNat ds + charVal c := by
  simp [digitsToNat, List.foldl_append]

theorem natDigsAux_spec : ∀ (fuel n : Nat), n ≤ fuel →
    (natDigsAux fuel n []).all isDigit = true ∧ natDigsAux fuel n [] ≠ [] ∧
    digitsToNat (natDigsAux fuel n []) = n := by
  intro fuel
  induction fuel with
  | zero =>
    intro n h
    have : n = 0 := Nat.le_zero.mp h
    subst this
    refine ⟨by decide, by simp [natDigsAux], by decide⟩
  | succ f ih =>
    intro n h
    by_cases h10 : n < 10
    · simp only [natDigsAux, if_pos h10]
      refine ⟨by simp [isDigit_digitChar n h10], by simp, ?_⟩
      simp [digitsToNat_cons, charVal_digitChar n h10, digitsToNat]
    · simp only [natDigsAux, if_neg h10]
      rw [natDigsAux_acc f (n / 10) [digitChar (n % 10)]]
      have hdiv : n / 10 ≤ f := by
        have := Nat.div_lt_self (by omega : 0 < n) (by omega : 1 < 10)
        omega
      obtain ⟨hall, hne, hval⟩ := ih (n / 10) hdiv
      have hm : n % 10 < 10 := Nat.mod_lt _ (by omega)
      refine ⟨?_, by simp, ?_⟩
      · simp only [List.all_append, hall, Bool.true_and, List.all_cons, List.all_nil,
          Bool.and_true]
        exact isDigit_digitChar _ hm
      · rw [digitsToNat_append_digit, hval, charVal_digitChar _ hm]
        omega

theorem natDigs_all (n : Nat) : (natDigs n).all isDigit = true :=
  (natDigsAux_spec n n le_rfl).1

theorem natDigs_ne_nil (n : Nat) : natDigs n ≠ [] :=
  (natDigsAux_spec n n le_rfl).2.1

theorem digitsToNat_natDigs (n : Nat) : digitsToNat (natDigs n) = n :=
  (natDigsAux_spec n n le_rfl).2.2

theorem takeDigits_append (ds rest : List Char) (hds : ds.all isDigit = true)
    (hrest : ∀ c, rest.head? = some c → isDigit c = false) :
    takeDigits (ds ++ rest) = (ds, rest) := by
  induction ds with
  | nil =>
    simp only [List.nil_append]
    cases rest with
    | nil => rfl
    | cons c t => simp [takeDigits, hrest c rfl]
  | cons d t ih =>
    simp only [List.all_cons, Bool.and_eq_true] at hds
    simp [takeDigits, hds.1, ih hds.2]

theorem qIntPart_le (a : ℚ) (h : 0 ≤ a) :
    (qIntPart a : ℚ) ≤ a ∧ a < (qIntPart a : ℚ) + 1 := by
  have hdpos : 0 < a.den := a.pos
  have hdq : 0 < (a.den : ℚ) := by exact_mod_cast hdpos
  have hnum : ((a.num.toNat : ℕ) : ℤ) = a.num := Int.toNat_of_nonneg (Rat.num_nonneg.mpr h)
  have h2 : ((a.num : ℤ) : ℚ) = a * (a.den : ℚ) :=
    (div_eq_iff (ne_of_gt hdq)).mp (Rat.num_div_den a)
  have ha : ((a.num.toNat : ℕ) : ℚ) = a * (a.den : ℚ) := by
    rw [← h2]
    exact_mod_cast congrArg (fun z : ℤ => (z : ℚ)) hnum
  constructor
  · have hmul : ((a.num.toNat / a.den : ℕ) : ℚ) * (a.den : ℚ) ≤ a * (a.den : ℚ) := by
      rw [← ha]
      exact_mod_cast Nat.div_mul_le_self a.num.toNat a.den
    have hle := (mul_le_mul_right hdq).mp hmul
    simpa [qIntPart] using hle
  · have hm1 : a.den * (a.num.toNat / a.den) + a.num.toNat % a.den = a.num.toNat :=
      Nat.div_add_mod _ _
    have hm2 : a.num.toNat % a.den < a.den := Nat.mod_lt _ hdpos
    have h3 : a.num.toNat < (a.num.toNat / a.den + 1) * a.den := by
      have e : (a.num.toNat / a.den + 1) * a.den
          = a.den * (a.num.toNat / a.den) + a.den := by ring
      omega
    have hmul : a * (a.den : ℚ) < ((a.num.toNat / a.den + 1 : ℕ) : ℚ) * (a.den : ℚ) := by
      rw [← ha]
      exact_mod_cast h3
    have hlt := (mul_lt_mul_right hdq).mp hmul
    have : a < ((a.num.toNat / a.den : ℕ) : ℚ) + 1 := by
      push_cast at hlt
      linarith
    simpa [qIntPart] using this

theorem denOne_sub {x y : ℚ} (hx : x.den = 1) (hy : y.den = 1) : (x - y).den = 1 := by
  rw [← (Rat.den_eq_one_iff x).mp hx, ← (Rat.den_eq_one_iff y).mp hy, ← Int.cast_sub]
  exact Rat.intCast_den _

theorem fracDigs_zero : ∀ k : Nat, fracDigs k 0 = [] := by
  intro k
  cases k <;> simp [fracDigs]

theorem fracDigs_spec : ∀ (k : Nat) (q : ℚ), 0 ≤ q → q < 1 →
    (q * (10 : ℚ) ^ k).den = 1 → q ≠ 0 →
    (fracDigs k q).all isDigit = true ∧ fracDigs k q ≠ [] ∧
      ((digitsToNat (fracDigs k q) : ℚ) = q * (10 : ℚ) ^ (fracDigs k q).length) := by
  intro k
  induction k with
  | zero =>
    intro q h0 h1 hden hne
    exfalso
    have hq : ((q.num : ℤ) : ℚ) = q := (Rat.den_eq_one_iff q).mp (by simpa using hden)
    have h0' : 0 ≤ q.num := Rat.num_nonneg.mpr h0
    have h1' : q.num < 1 := by
      by_contra hle
      push_neg at hle
      have hle' : (1 : ℚ) ≤ ((q.num : ℤ) : ℚ) := by exact_mod_cast hle
      rw [hq] at hle'
      exact absurd h1 (not_lt.mpr hle')
    have hz : q.num = 0 := by omega
    apply hne
    rw [← hq, hz]
    norm_num
  | succ k ih =>
    intro q h0 h1 hden hne
    have h0q : (0 : ℚ) ≤ q * 10 := mul_nonneg h0 (by norm_num)
    have hlt : q * 10 < 10 := by nlinarith
    obtain ⟨hd1, hd2⟩ := qIntPart_le (q * 10) h0q
    have hd9 : qIntPart (q * 10) < 10 := by
      have hq : ((qIntPart (q * 10) : ℕ) : ℚ) < 10 := lt_of_le_of_lt hd1 hlt
      exact_mod_cast hq
    have hr0 : (0 : ℚ) ≤ q * 10 - (qIntPart (q * 10) : ℚ) := by linarith
    have hr1 : q * 10 - (qIntPart (q * 10) : ℚ) < 1 := by linarith
    have hrden : ((q * 10 - (qIntPart (q * 10) : ℚ)) * (10 : ℚ) ^ k).den = 1 := by
      have e : (q * 10 - (qIntPart (q * 10) : ℚ)) * (10 : ℚ) ^ k
          = q * (10 : ℚ) ^ (k + 1)
            - (((qIntPart (q * 10) : ℤ) * 10 ^ k : ℤ) : ℚ) := by
        push_cast
        ring
      rw [e]
      exact denOne_sub hden (Rat.intCast_den _)
    rw [fracDigs, if_neg hne]
    by_cases hrz : q * 10 - (qIntPart (q * 10) : ℚ) = 0
    · have hq10 : q * 10 = (qIntPart (q * 10) : ℚ) := by linarith
      rw [hrz, fracDigs_zero]
      refine ⟨by simp [isDigit_digitChar _ hd9], by simp, ?_⟩
      rw [digitsToNat_cons, charVal_digitChar _ hd9]
      simp only [List.length_nil, List.length_cons, pow_zero, mul_one, digitsToNat,
        List.foldl_nil, pow_one]
      push_cast
      linarith
    · obtain ⟨ha, hb, hc⟩ := ih (q * 10 - (qIntPart (q * 10) : ℚ)) hr0 hr1 hrden hrz
      refine ⟨by simp [isDigit_digitChar _ hd9, ha], by simp, ?_⟩
      rw [digitsToNat_cons, charVal_digitChar _ hd9, List.length_cons]
      push_cast
      rw [hc]
      ring

theorem numDelim_head_not_digit {rest : List Char} (hd : numDelim rest = true) :
    ∀ c, rest.head? = some c → isDigit c = false := by
  intro c hc
  cases rest with
  | nil => simp at hc
  | cons r t =>
    simp only [List.head?_cons, Option.some.injEq] at hc
    subst hc
    simp only [numDelim, Bool.and_eq_true, Bool.not_eq_true'] at hd
    exact hd.1

theorem numDelim_head_not_dot {rest : List Char} (hd : numDelim rest = true) :
    ¬ rest.head? = some '.' := by
  cases rest with
  | nil => simp
  | cons r t =>
    simp only [numDelim, Bool.and_eq_true, Bool.not_eq_true'] at hd
    simp only [List.head?_cons, Option.some.injEq]
    intro e
    subst e
    simp at hd

theorem head?_append_of_ne_nil {α : Type} {l₁ l₂ : List α} (h : l₁ ≠ []) :
    (l₁ ++ l₂).head? = l₁.head? := by
  cases l₁ with
  | nil => exact absurd rfl h
  | cons a t => rfl

theorem head?_natDigs_digit (n : Nat) :
    ∃ c, (natDigs n).head? = some c ∧ isDigit c = true := by
  obtain ⟨c, t, e⟩ := List.exists_cons_of_ne_nil (natDigs_ne_nil n)
  refine ⟨c, by rw [e]; rfl, ?_⟩
  have hall := natDigs_all n
  rw [e] at hall
  simp only [List.all_cons, Bool.and_eq_true] at hall
  exact hall.1

theorem parseUnsigned_int (n : Nat) (rest : List Char) (hd : numDelim rest = true) :
    parseUnsigned (natDigs n ++ rest) = some ((n : ℚ), rest) := by
  simp only [parseUnsigned]
  rw [takeDigits_append _ _ (natDigs_all n) (numDelim_head_not_digit hd)]
  dsimp only
  rw [isEmpty_false_of_ne_nil (natDigs_ne_nil n)]
  simp only [Bool.false_eq_true, if_false]
  rw [if_neg (numDelim_head_not_dot hd), digitsToNat_natDigs]

theorem parseUnsigned_frac (n : Nat) (fds rest : List Char)
    (hall : fds.all isDigit = true) (hne : fds ≠ []) (hd : numDelim rest = true) :
    parseUnsigned (natDigs n ++ '.' :: (fds ++ rest))
      = some ((n : ℚ) + (digitsToNat fds : ℚ) / (10 : ℚ) ^ fds.length, rest) := by
  simp only [parseUnsigned]
  rw [takeDigits_append (natDigs n) ('.' :: (fds ++ rest)) (natDigs_all n)
    (by intro c hc; simp only [List.head?_cons, Option.some.injEq] at hc; subst hc; decide)]
  dsimp only
  rw [isEmpty_false_of_ne_nil (natDigs_ne_nil n)]
  simp only [Bool.false_eq_true, if_false, List.head?_cons, List.tail_cons, if_pos rfl]
  rw [takeDigits_append fds rest hall (numDelim_head_not_digit hd)]
  dsimp only
  rw [isEmpty_false_of_ne_nil hne]
  simp [digitsToNat_natDigs]

theorem parseUnsigned_renderQNonneg (a : ℚ) (h0 : 0 ≤ a)
    (hrep : (a * (10 : ℚ) ^ (10 : ℕ)).den = 1) (rest : List Char)
    (hd : numDelim rest = true) :
    parseUnsigned (renderQNonneg a ++ rest) = some (a, rest) := by
  obtain ⟨hle, hlt⟩ := qIntPart_le a h0
  by_cases hfr : a - (qIntPart a : ℚ) = 0
  · rw [renderQNonneg, if_pos hfr, List.append_nil, parseUnsigned_int _ _ hd]
    have : a = ((qIntPart a : ℕ) : ℚ) := by linarith
    rw [← this]
  · rw [renderQNonneg, if_neg hfr]
    have hr0 : (0 : ℚ) ≤ a - (qIntPart a : ℚ) := by linarith
    have hr1 : a - (qIntPart a : ℚ) < 1 := by linarith
    have hrden : ((a - (qIntPart a : ℚ)) * (10 : ℚ) ^ (10 : ℕ)).den = 1 := by
      have e : (a - (qIntPart a : ℚ)) * (10 : ℚ) ^ (10 : ℕ)
          = a * (10 : ℚ) ^ (10 : ℕ)
            - (((qIntPart a : ℤ) * 10 ^ (10 : ℕ) : ℤ) : ℚ) := by
        push_cast
        ring
      rw [e]
      exact denOne_sub hrep (Rat.intCast_den _)
    obtain ⟨hall, hne, hval⟩ := fracDigs_spec 10 _ hr0 hr1 hrden hfr
    rw [List.append_assoc, List.cons_append,
      parseUnsigned_frac _ _ _ hall hne hd]
    have h10 : (0 : ℚ) < (10 : ℚ) ^ (fracDigs 10 (a - (qIntPart a : ℚ))).length :=
      pow_pos (by norm_num) _
    have : (digitsToNat (fracDigs 10 (a - (qIntPart a : ℚ))) : ℚ)
        / (10 : ℚ) ^ (fracDigs 10 (a - (qIntPart a : ℚ))).length
        = a - (qIntPart a : ℚ) := by
      rw [hval]
      field_simp
    rw [this]
    norm_num

theorem numRep_den {q : ℚ} (h : numRep q = true) :
    (q * (10 : ℚ) ^ (10 : ℕ)).den = 1 := by
  simpa [numRep] using h

theorem parseNumTok_renderQ (q : ℚ) (hrep : numRep q = true) (rest : List Char)
    (hd : numDelim rest = true) :
    parseNumTok (renderQ q ++ rest) = some (q, rest) := by
  by_cases hneg : q < 0
  · rw [renderQ, if_pos hneg, List.cons_append, parseNumTok]
    simp only [List.head?_cons, List.tail_cons, if_pos rfl]
    have h0 : (0 : ℚ) ≤ -q := by linarith
    have hrep' : ((-q) * (10 : ℚ) ^ (10 : ℕ)).den = 1 := by
      have e : (-q) * (10 : ℚ) ^ (10 : ℕ) = -(q * (10 : ℚ) ^ (10 : ℕ)) := by ring
      rw [e, Rat.neg_den]
      exact numRep_den hrep
    rw [parseUnsigned_renderQNonneg _ h0 hrep' _ hd]
    simp
  · rw [renderQ, if_neg hneg, parseNumTok]
    have h0 : (0 : ℚ) ≤ q := by linarith
    obtain ⟨c, hc, hcd⟩ := head?_natDigs_digit (qIntPart q)
    have hh : (renderQNonneg q ++ rest).head? = some c := by
      rw [renderQNonneg, List.append_assoc,
        head?_append_of_ne_nil (natDigs_ne_nil (qIntPart q)), hc]
    have hne' : ¬ (renderQNonneg q ++ rest).head? = some '-' := by
      rw [hh]
      intro e
      rw [Option.some.injEq] at e
      subst e
      exact absurd hcd (by decide)
    rw [if_neg hne']
    exact parseUnsigned_renderQNonneg q h0 (numRep_den hrep) rest hd

/-! ## Round-trip lemmas: strings, scalars, lists, the split object -/

theorem escL_cons (c : Char) (t : List Char) : escL (c :: t) = escC c ++ escL t := rfl

theorem parseStrAux_escL (l : List Char) (rest : List Char) :
    parseStrAux (escL l ++ '"' :: rest) = some (l, rest) := by
  induction l with
  | nil =>
    show parseStrAux ('"' :: rest) = _
    simp [parseStrAux]
  | cons c t ih =>
    rw [escL_cons, List.append_assoc]
    by_cases h1 : c = '"'
    · subst h1
      show parseStrAux ('\\' :: '"' :: (escL t ++ '"' :: rest)) = _
      simp [parseStrAux, unesc, ih]
    · by_cases h2 : c = '\\'
      · subst h2
        show parseStrAux ('\\' :: '\\' :: (escL t ++ '"' :: rest)) = _
        simp [parseStrAux, unesc, ih]
      · by_cases h3 : c = '/'
        · subst h3
          show parseStrAux ('\\' :: '/' :: (escL t ++ '"' :: rest)) = _
          simp [parseStrAux, unesc, ih]
        · rw [escC, if_neg h1, if_neg h2, if_neg h3, List.singleton_append]
          simp [parseStrAux, h1, h2, ih]

theorem parseJStr_cons (t : List Char) :
    parseJStr ('"' :: t) = (parseStrAux t).map (fun p => (String.mk p.1, p.2)) := rfl

theorem parseJStr_render (s : String) (rest : List Char) :
    parseJStr (renderJStr s ++ rest) = some (s, rest) := by
  rw [renderJStr]
  simp only [List.cons_append, List.append_assoc, List.singleton_append]
  rw [parseJStr_cons, parseStrAux_escL]
  rfl

theorem numDelim_of_head {r : List Char}
    (h : r.head? = some ',' ∨ r.head? = some ']') : numDelim r = true := by
  cases r with
  | nil => rfl
  | cons c t =>
    rcases h with h | h <;>
      simp only [List.head?_cons, Option.some.injEq] at h <;> subst h <;> rfl

theorem parseJInt_render (i : ℤ) (rest : List Char) (hd : numDelim rest = true) :
    parseJInt (renderInt i ++ rest) = some (i, rest) := by
  have hrep : numRep (i : ℚ) = true := by
    rw [numRep]
    have e : (i : ℚ) * (10 : ℚ) ^ (10 : ℕ) = ((i * 10 ^ (10 : ℕ) : ℤ) : ℚ) := by
      push_cast
      ring
    rw [e, Rat.intCast_den]
    rfl
  rw [renderInt, parseJInt, parseNumTok_renderQ _ hrep _ hd]
  simp [Rat.intCast_den, Rat.intCast_num]

theorem renderQ_ne_nil (q : ℚ) : renderQ q ≠ [] := by
  rw [renderQ]
  by_cases h : q < 0
  · simp [h]
  · rw [if_neg h, renderQNonneg]
    intro e
    rcases List.append_eq_nil.mp e with ⟨e1, _⟩
    exact natDigs_ne_nil _ e1

theorem renderValue_ne_nil (v : Value) : renderValue v ≠ [] := by
  cases v with
  | null => simp [renderValue]
  | bool b => cases b <;> simp [renderValue]
  | num q => exact renderQ_ne_nil q
  | inf b => simp [renderValue]
  | str s => simp [renderJStr, renderValue]

theorem renderQ_head (q : ℚ) :
    ∃ c, (renderQ q).head? = some c ∧ (c = '-' ∨ isDigit c = true) := by
  rw [renderQ]
  by_cases h : q < 0
  · exact ⟨'-', by simp [h], Or.inl rfl⟩
  · rw [if_neg h, renderQNonneg]
    obtain ⟨c, hc, hcd⟩ := head?_natDigs_digit (qIntPart q)
    exact ⟨c, by rw [head?_append_of_ne_nil (natDigs_ne_nil _), hc], Or.inr hcd⟩

theorem parseValue_cons (c : Char) (t : List Char) :
    parseValue (c :: t)
      = if c = 'n' then (expectLit ['u', 'l', 'l'] t).map (fun r => (.null, r))
        else if c = 't' then (expectLit ['r', 'u', 'e'] t).map (fun r => (.bool true, r))
        else if c = 'f' then
          (expectLit ['a', 'l', 's', 'e'] t).map (fun r => (.bool false, r))
        else if c = '"' then (parseStrAux t).map (fun p => (.str (String.mk p.1), p.2))
        else (parseNumTok (c :: t)).map (fun p => (.num p.1, p.2)) := rfl

theorem parseValue_render (v : Value) (hrep : valRep v = true) (rest : List Char)
    (hd : numDelim rest = true) :
    parseValue (renderValue v ++ rest) = some (v, rest) := by
  cases v with
  | null => simp [renderValue, parseValue_cons, expectLit]
  | bool b => cases b <;> simp [renderValue, parseValue_cons, expectLit]
  | inf b => simp [valRep] at hrep
  | str s =>
    rw [renderValue, renderJStr]
    simp only [List.cons_append, List.append_assoc, List.singleton_append]
    rw [parseValue_cons]
    simp only [reduceIte]
    rw [parseStrAux_escL]
    rfl
  | num q =>
    obtain ⟨c, hc, hcd⟩ := renderQ_head q
    obtain ⟨t0, e⟩ : ∃ t0, renderQ q = c :: t0 := by
      cases hq : renderQ q with
      | nil => rw [hq] at hc; simp at hc
      | cons c0 t0 =>
        rw [hq, List.head?_cons, Option.some.injEq] at hc
        exact ⟨t0, by rw [hc]⟩
    have hcn : c ≠ 'n' ∧ c ≠ 't' ∧ c ≠ 'f' ∧ c ≠ '"' := by
      rcases hcd with h | h
      · subst h
        exact ⟨by decide, by decide, by decide, by decide⟩
      · exact ⟨ne_of_isDigit h (by decide), ne_of_isDigit h (by decide),
          ne_of_isDigit h (by decide), ne_of_isDigit h (by decide)⟩
    rw [renderValue, e, List.cons_append, parseValue_cons,
      if_neg hcn.1, if_neg hcn.2.1, if_neg hcn.2.2.1, if_neg hcn.2.2.2,
      ← List.cons_append, ← e, parseNumTok_renderQ q (by simpa [valRep] using hrep) rest hd]
    rfl

theorem expectLit_append (lit rest : List Char) :
    expectLit lit (lit ++ rest) = some rest := by
  induction lit with
  | nil => rfl
  | cons l t ih => simp [expectLit, ih]

theorem renderSep_single {α : Type} (f : α → List Char) (a : α) :
    renderSep f [a] = f a := rfl

theorem renderSep_cons2 {α : Type} (f : α → List Char) (a b : α) (t : List α) :
    renderSep f (a :: b :: t) = f a ++ ',' :: renderSep f (b :: t) := rfl

theorem parseElems_succ {α : Type} (p : List Char → Option (α × List Char))
    (fuel : Nat) (cs : List Char) :
    parseElems p (fuel + 1) cs
      = match p cs with
        | none => none
        | some (a, rest) =>
          match rest with
          | ',' :: r2 => (parseElems p fuel r2).map (fun q => (a :: q.1, q.2))
          | ']' :: r2 => some ([a], r2)
          | _ => none := rfl

theorem parseElems_renderSep {α : Type} (p : List Char → Option (α × List Char))
    (f : α → List Char) :
    ∀ (xs : List α), (∀ x ∈ xs, f x ≠ []) →
    (∀ x ∈ xs, ∀ r : List Char,
        r.head? = some ',' ∨ r.head? = some ']' → p (f x ++ r) = some (x, r)) →
    ∀ (fuel : Nat), xs.length < fuel → xs ≠ [] → ∀ rest : List Char,
    parseElems p fuel (renderSep f xs ++ ']' :: rest) = some (xs, rest) := by
  intro xs
  induction xs with
  | nil => intro _ _ _ _ hne _; exact absurd rfl hne
  | cons a xs' ih =>
    intro hfne hp fuel hfuel _ rest
    cases fuel with
    | zero => exact absurd hfuel (Nat.not_lt_zero _)
    | succ fuel' =>
      cases xs' with
      | nil =>
        rw [renderSep_single, parseElems_succ,
          hp a (by simp) (']' :: rest) (Or.inr rfl)]
        rfl
      | cons b xs'' =>
        rw [renderSep_cons2, List.append_assoc, List.cons_append, parseElems_succ,
          hp a (by simp) (',' :: (renderSep f (b :: xs'') ++ ']' :: rest)) (Or.inl rfl)]
        show Option.map (fun q => (a :: q.1, q.2))
          (parseElems p fuel' (renderSep f (b :: xs'') ++ ']' :: rest))
            = some (a :: b :: xs'', rest)
        have hlen : (b :: xs'').length < fuel' := by
          simp only [List.length_cons] at hfuel ⊢
          omega
        rw [ih (fun x hx => hfne x (by simp [hx]))
          (fun x hx r hr => hp x (by simp [hx]) r hr) fuel' hlen (by simp) rest]
        rfl

theorem renderSep_head {α : Type} (f : α → List Char) (a : α) (xs : List α)
    (hne : f a ≠ []) : (renderSep f (a :: xs)).head? = (f a).head? := by
  cases xs with
  | nil => rfl
  | cons b t => exact head?_append_of_ne_nil hne

theorem parseListOf_cons {α : Type} (p : List Char → Option (α × List Char))
    (fuel : Nat) (t : List Char) :
    parseListOf p fuel ('[' :: t)
      = if t.head? = some ']' then some ([], t.tail) else parseElems p fuel t := rfl

theorem parseListOf_render {α : Type} (p : List Char → Option (α × List Char))
    (f : α → List Char) (xs : List α)
    (hfne : ∀ x ∈ xs, f x ≠ [])
    (hhead : ∀ x ∈ xs, ¬ (f x).head? = some ']')
    (hp : ∀ x ∈ xs, ∀ r : List Char,
        r.head? = some ',' ∨ r.head? = some ']' → p (f x ++ r) = some (x, r))
    (fuel : Nat) (hfuel : xs.length < fuel) (rest : List Char) :
    parseListOf p fuel (renderList f xs ++ rest) = some (xs, rest) := by
  cases xs with
  | nil => rfl
  | cons a xs' =>
    rw [renderList]
    simp only [List.cons_append, List.append_assoc, List.singleton_append,
      List.nil_append]
    rw [parseListOf_cons]
    have hne0 : renderSep f (a :: xs') ≠ [] := by
      intro e
      cases xs' with
      | nil => exact hfne a (by simp) (by rw [← renderSep_single f a]; exact e)
      | cons b t =>
        rw [renderSep_cons2] at e
        rcases List.append_eq_nil.mp e with ⟨e1, _⟩
        exact hfne a (by simp) e1
    have hh : (renderSep f (a :: xs') ++ ']' :: rest).head? = (f a).head? := by
      rw [head?_append_of_ne_nil hne0, renderSep_head f a xs' (hfne a (by simp))]
    rw [if_neg ?hcond]
    case hcond =>
      rw [hh]
      exact hhead a (by simp)
    exact parseElems_renderSep p f (a :: xs') hfne hp fuel hfuel (by simp) rest

theorem renderSep_length_ge {α : Type} (f : α → List Char) :
    ∀ xs : List α, (∀ x ∈ xs, f x ≠ []) → xs.length ≤ (renderSep f xs).length := by
  intro xs
  induction xs with
  | nil => intro _; simp [renderSep]
  | cons a t ih =>
    intro h
    cases t with
    | nil =>
      rw [renderSep_single]
      cases hf : f a with
      | nil => exact absurd hf (h a (by simp))
      | cons c cs => simp
    | cons b t' =>
      rw [renderSep_cons2]
      have h2 := ih (fun x hx => h x (by simp [hx]))
      simp only [List.length_append, List.length_cons] at h2 ⊢
      omega

theorem renderSep_length_mem {α : Type} (f : α → List Char) :
    ∀ (xs : List α) (x : α), x ∈ xs → (f x).length ≤ (renderSep f xs).length := by
  intro xs
  induction xs with
  | nil => intro x hx; simp at hx
  | cons a t ih =>
    intro x hx
    cases t with
    | nil =>
      have hxa : x = a := by simpa using hx
      subst hxa
      rw [renderSep_single]
    | cons b t' =>
      rw [renderSep_cons2]
      simp only [List.length_append, List.length_cons]
      rcases List.mem_cons.mp hx with hxa | hxm
      · subst hxa
        omega
      · have h2 := ih x hxm
        omega

theorem renderValue_head_ne (v : Value) : ¬ (renderValue v).head? = some ']' := by
  cases v with
  | null => simp [renderValue]
  | bool b => cases b <;> simp [renderValue]
  | inf b => simp [renderValue]
  | str s => simp [renderValue, renderJStr]
  | num q =>
    obtain ⟨c, hc, hcd⟩ := renderQ_head q
    rw [renderValue, hc]
    intro e
    rw [Option.some.injEq] at e
    subst e
    rcases hcd with h | h
    · exact absurd h (by decide)
    · exact absurd h (by decide)

theorem renderInt_head_ne (i : ℤ) : ¬ (renderInt i).head? = some ']' := by
  have := renderValue_head_ne (.num (i : ℚ))
  simpa [renderValue, renderInt] using this

theorem renderJStr_head_ne (s : String) : ¬ (renderJStr s).head? = some ']' := by
  simp [renderJStr]

theorem renderList_ne_nil {α : Type} (f : α → List Char) (xs : List α) :
    renderList f xs ≠ [] := by
  rw [renderList]
  simp

theorem renderList_head_ne {α : Type} (f : α → List Char) (xs : List α) :
    ¬ (renderList f xs).head? = some ']' := by
  rw [renderList, List.cons_append]
  simp

theorem renderList_length_ge {α : Type} (f : α → List Char) (xs : List α)
    (h : ∀ x ∈ xs, f x ≠ []) : xs.length ≤ (renderList f xs).length := by
  rw [renderList, List.cons_append]
  have := renderSep_length_ge f xs h
  simp only [List.length_cons, List.length_append]
  omega

theorem renderJStr_ne_nil (s : String) : renderJStr s ≠ [] := by
  simp [renderJStr]

theorem renderInt_ne_nil (i : ℤ) : renderInt i ≠ [] := renderQ_ne_nil _

theorem dfRep_parts {df : DataFrame} (h : dfRep df = true) :
    (∀ c ∈ df.columns, strRep c = true)
      ∧ ∀ r ∈ df.data, ∀ v ∈ r, valRep v = true := by
  rw [dfRep, Bool.and_eq_true, List.all_eq_true, List.all_eq_true] at h
  refine ⟨h.1, fun r hr v hv => ?_⟩
  have := h.2 r hr
  rw [List.all_eq_true] at this
  exact this v hv

theorem parseSplitF_render (df : DataFrame) (hrep : dfRep df = true) (fuel : Nat)
    (h1 : df.columns.length < fuel) (h2 : df.index.length < fuel)
    (h3 : df.data.length < fuel) (h4 : ∀ row ∈ df.data, row.length < fuel) :
    parseSplitF fuel (renderChars df) = some df := by
  obtain ⟨hrepS, hrepV⟩ := dfRep_parts hrep
  rw [renderChars, parseSplitF]
  simp only [List.append_assoc]
  rw [expectLit_append litHead _, Option.some_bind,
    parseListOf_render parseJStr renderJStr df.columns
      (fun s _ => renderJStr_ne_nil s) (fun s _ => renderJStr_head_ne s)
      (fun s _ r _ => parseJStr_render s r) fuel h1 _,
    Option.some_bind,
    expectLit_append litIndex _, Option.some_bind,
    parseListOf_render parseJInt renderInt df.index
      (fun i _ => renderInt_ne_nil i) (fun i _ => renderInt_head_ne i)
      (fun i _ r hr => parseJInt_render i r (numDelim_of_head hr)) fuel h2 _,
    Option.some_bind,
    expectLit_append litData _, Option.some_bind,
    parseListOf_render (parseListOf parseValue fuel) (renderList renderValue) df.data
      (fun row _ => renderList_ne_nil renderValue row)
      (fun row _ => renderList_head_ne renderValue row)
      (fun row hrow r _ =>
        parseListOf_render parseValue renderValue row
          (fun v _ => renderValue_ne_nil v) (fun v _ => renderValue_head_ne v)
          (fun v hv r2 hr2 =>
            parseValue_render v (hrepV row hrow v hv) r2 (numDelim_of_head hr2))
          fuel (h4 row hrow) r)
      fuel h3 _,
    Option.some_bind]
  rfl

theorem parseSplit_renderChars (df : DataFrame) (hrep : dfRep df = true) :
    parseSplit (renderChars df) = some df := by
  rw [parseSplit]
  have hne : ∀ x ∈ df.columns, renderJStr x ≠ [] := fun s _ => renderJStr_ne_nil s
  have hneI : ∀ x ∈ df.index, renderInt x ≠ [] := fun i _ => renderInt_ne_nil i
  have hneD : ∀ x ∈ df.data, renderList renderValue x ≠ [] :=
    fun row _ => renderList_ne_nil renderValue row
  have hb1 : (renderList renderJStr df.columns).length ≤ (renderChars df).length := by
    rw [renderChars]
    simp only [List.length_append]
    omega
  have hb2 : (renderList renderInt df.index).length ≤ (renderChars df).length := by
    rw [renderChars]
    simp only [List.length_append]
    omega
  have hb3 : (renderList (renderList renderValue) df.data).length
      ≤ (renderChars df).length := by
    rw [renderChars]
    simp only [List.length_append]
    omega
  have b1 := renderList_length_ge renderJStr df.columns hne
  have b2 := renderList_length_ge renderInt df.index hneI
  have b3 := renderList_length_ge (renderList renderValue) df.data hneD
  apply parseSplitF_render df hrep
  · omega
  · omega
  · omega
  · intro row hrow
    have hrr : row.length ≤ (renderList renderValue row).length :=
      renderList_length_ge renderValue row (fun v _ => renderValue_ne_nil v)
    have hmem : (renderList renderValue row).length
        ≤ (renderSep (renderList renderValue) df.data).length :=
      renderSep_length_mem (renderList renderValue) df.data row hrow
    have hsep : (renderSep (renderList renderValue) df.data).length
        ≤ (renderList (renderList renderValue) df.data).length := by
      rw [renderList, List.cons_append]
      simp only [List.length_cons, List.length_append]
      omega
    omega

/-! ## Tolerant decode: the escaped-and-quoted artifact -/

theorem read_json_to_json (df : DataFrame) (hrep : dfRep df = true) :
    read_json (to_json df) = some df := by
  rw [read_json, to_json]
  exact parseSplit_renderChars df hrep

theorem decode_json_parse_ok {s : String} {df : DataFrame}
    (h : parseSplit s.data = some df) : decode_json s = .ok df := by
  unfold decode_json
  rw [h]

theorem decode_json_retry_ok {s : String} {df : DataFrame}
    (h1 : parseSplit s.data = none)
    (h2 : parseSplit (unescapeStrip s.data) = some df) : decode_json s = .ok df := by
  unfold decode_json
  rw [h1, h2]

theorem decode_json_fail {s : String}
    (h1 : parseSplit s.data = none)
    (h2 : parseSplit (unescapeStrip s.data) = none) :
    decode_json s = .error .decodeError := by
  unfold decode_json
  rw [h1, h2]

theorem parseSplit_quote_none (cs : List Char) : parseSplit ('"' :: cs) = none := rfl

theorem replace2_cons_ne {a b c x : Char} (h : ¬ x = a) (l : List Char) :
    replace2 a b c (x :: l) = x :: replace2 a b c l := by
  cases l with
  | nil => rfl
  | cons y t => simp [replace2, h]

theorem replace2_cons_ne2 {a b c y : Char} (x : Char) (h : ¬ y = b) (l : List Char) :
    replace2 a b c (x :: y :: l) = x :: replace2 a b c (y :: l) := by
  simp [replace2, h]

theorem replace2_pair (a b c : Char) (l : List Char) :
    replace2 a b c (a :: b :: l) = c :: replace2 a b c l := by
  simp [replace2]

theorem escQL_cons (c : Char) (t : List Char) : escQL (c :: t) = escQ c ++ escQL t := rfl

theorem unescape_escQL (l : List Char) :
    replace2 '\\' '\\' '\\' (replace2 '\\' '"' '"' (escQL l ++ ['"'])) = l ++ ['"'] := by
  induction l with
  | nil => rfl
  | cons x t ih =>
    by_cases h1 : x = '"'
    · subst h1
      show replace2 '\\' '\\' '\\'
        (replace2 '\\' '"' '"' ('\\' :: '"' :: (escQL t ++ ['"']))) = _
      rw [replace2_pair, replace2_cons_ne (by decide : ¬ ('"' : Char) = '\\'), ih]
      rfl
    · by_cases h2 : x = '\\'
      · subst h2
        show replace2 '\\' '\\' '\\'
          (replace2 '\\' '"' '"' ('\\' :: '\\' :: (escQL t ++ ['"']))) = _
        cases t with
        | nil => rfl
        | cons u t' =>
          obtain ⟨h0, r0, he, hne0⟩ :
              ∃ h0 r0, escQL (u :: t') ++ ['"'] = h0 :: r0 ∧ ¬ h0 = '"' := by
            by_cases hu1 : u = '"'
            · subst hu1
              exact ⟨'\\', '"' :: (escQL t' ++ ['"']), rfl, by decide⟩
            · by_cases hu2 : u = '\\'
              · subst hu2
                exact ⟨'\\', '\\' :: (escQL t' ++ ['"']), rfl, by decide⟩
              · refine ⟨u, escQL t' ++ ['"'], ?_, hu1⟩
                rw [escQL_cons, escQ, if_neg hu1, if_neg hu2, List.singleton_append,
                  List.cons_append]
          rw [replace2_cons_ne2 '\\' (by decide : ¬ ('\\' : Char) = '"'), he,
            replace2_cons_ne2 '\\' hne0, ← he, replace2_pair, ih]
          rfl
      · show replace2 '\\' '\\' '\\'
          (replace2 '\\' '"' '"' ((escQ x ++ escQL t) ++ ['"'])) = _
        rw [escQ, if_neg h1, if_neg h2, List.singleton_append, List.cons_append,
          replace2_cons_ne h2, replace2_cons_ne h2, ih]
        rfl

theorem unescapeStrip_quoteWrap (l : List Char) :
    unescapeStrip ('"' :: (escQL l ++ ['"'])) = l := by
  rw [unescapeStrip,
    replace2_cons_ne (by decide : ¬ ('"' : Char) = '\\'),
    replace2_cons_ne (by decide : ¬ ('"' : Char) = '\\'),
    unescape_escQL]
  rw [stripQuotes, if_pos ?hc]
  case hc =>
    rw [Bool.and_eq_true]
    constructor
    · rfl
    · rw [decide_eq_true_eq, ← List.cons_append, List.getLast?_concat]
  rw [List.drop_one, List.tail_cons, List.dropLast_concat]

theorem decode_json_quoteWrap (df : DataFrame) (hrep : dfRep df = true) :
    decode_json (quoteWrap (to_json df)) = .ok df := by
  have hdata : (quoteWrap (to_json df)).data
      = '"' :: (escQL (renderChars df) ++ ['"']) := by
    simp [quoteWrap, to_json, List.cons_append]
  apply decode_json_retry_ok
  · rw [hdata]
    exact parseSplit_quote_none _
  · rw [hdata, unescapeStrip_quoteWrap]
    exact parseSplit_renderChars df hrep

/-! ## Core-operation lemmas -/

theorem getD_set_ne {α : Type} (l : List α) (k j : Nat) (v d : α) (h : k ≠ j) :
    (l.set k v).getD j d = l.getD j d := by
  induction l generalizing k j with
  | nil => simp [List.set]
  | cons a t ih =>
    cases k with
    | zero =>
      cases j with
      | zero => exact absurd rfl h
      | succ j' => rfl
    | succ k' =>
      cases j with
      | zero => rfl
      | succ j' => exact ih k' j' (fun e => h (by rw [e]))

theorem getD_set_self {α : Type} (l : List α) (k : Nat) (v d : α) (h : k < l.length) :
    (l.set k v).getD k d = v := by
  induction l generalizing k with
  | nil => simp at h
  | cons a t ih =>
    cases k with
    | zero => rfl
    | succ k' => exact ih k' (by simpa using h)

theorem getD_concat_self {α : Type} (l : List α) (v d : α) :
    (l ++ [v]).getD l.length d = v := by
  induction l with
  | nil => rfl
  | cons a t ih => simp [ih]

theorem getD_append_lt {α : Type} (l l2 : List α) (j : Nat) (d : α)
    (h : j < l.length) : (l ++ l2).getD j d = l.getD j d := by
  induction l generalizing j with
  | nil => simp at h
  | cons a t ih =>
    cases j with
    | zero => rfl
    | succ j' => exact ih j' (by simpa using h)

theorem contains_false_not_mem {l : List String} {c : String}
    (h : l.contains c = false) : c ∉ l := by
  simpa using h

theorem mem_of_contains {l : List String} {c : String}
    (h : l.contains c = true) : c ∈ l := by
  simpa using h

theorem getD_mem {α : Type} :
    ∀ (l : List α) (j : Nat) (d : α), j < l.length → l.getD j d ∈ l := by
  intro l
  induction l with
  | nil => intro j d h; simp at h
  | cons a t ih =>
    intro j d h
    cases j with
    | zero => simp
    | succ j' => exact List.mem_cons_of_mem a (ih j' d (by simpa using h))

theorem nodupB_parts {c : String} {t : List String} (h : nodupB (c :: t) = true) :
    c ∉ t ∧ nodupB t = true := by
  rw [nodupB, Bool.and_eq_true, Bool.not_eq_true'] at h
  exact ⟨contains_false_not_mem h.1, h.2⟩

theorem idxOf?_self_of_nodup :
    ∀ (cols : List String), nodupB cols = true → ∀ j, j < cols.length →
    idxOf? cols (cols.getD j "") = some j := by
  intro cols
  induction cols with
  | nil => intro _ j hj; simp at hj
  | cons c t ih =>
    intro hnd j hj
    obtain ⟨hct, hnt⟩ := nodupB_parts hnd
    cases j with
    | zero => simp [idxOf?]
    | succ j' =>
      have hj' : j' < t.length := by simpa using hj
      have hmem : t.getD j' "" ∈ t := getD_mem t j' "" hj'
      have hne : ¬ c = t.getD j' "" := fun e => hct (e ▸ hmem)
      show idxOf? (c :: t) (t.getD j' "") = some (j' + 1)
      rw [idxOf?, if_neg hne, ih hnt j' hj']
      rfl

theorem idxOf?_spec :
    ∀ (cols : List String) (c : String), c ∈ cols →
    ∃ j, idxOf? cols c = some j ∧ j < cols.length ∧ cols.getD j "" = c := by
  intro cols
  induction cols with
  | nil => intro c hc; simp at hc
  | cons a t ih =>
    intro c hc
    by_cases he : a = c
    · exact ⟨0, by simp [idxOf?, he], by simp, he⟩
    · have hct : c ∈ t := by
        rcases List.mem_cons.mp hc with h | h
        · exact absurd h.symm he
        · exact h
      obtain ⟨j, hj1, hj2, hj3⟩ := ih c hct
      refine ⟨j + 1, ?_, by simpa using hj2, hj3⟩
      rw [idxOf?, if_neg he, hj1]
      rfl

theorem lookup_eq_none_of_not_mem {upd : List (String × Value)} {c : String}
    (h : c ∉ upd.map Prod.fst) : upd.lookup c = none := by
  induction upd with
  | nil => rfl
  | cons p rest ih =>
    simp only [List.map_cons, List.mem_cons, not_or] at h
    have hbeq : (c == p.1) = false := by
      rw [beq_eq_false_iff_ne]
      exact h.1
    simp only [List.lookup, hbeq]
    exact ih h.2

theorem applyUpdates_length (df : DataFrame) :
    ∀ (upd : List (String × Value)) (row : List Value),
    (applyUpdates df upd row).length = row.length := by
  intro upd
  induction upd with
  | nil => intro row; rfl
  | cons p rest ih =>
    intro row
    show (applyUpdates df rest (row.set _ p.2)).length = row.length
    rw [ih, List.length_set]

theorem applyUpdates_getD (df : DataFrame) :
    ∀ (upd : List (String × Value)) (row : List Value),
    nodupB df.columns = true → nodupB (upd.map Prod.fst) = true →
    (∀ p ∈ upd, df.columns.contains p.1 = true) →
    row.length = df.columns.length →
    ∀ j, j < df.columns.length →
    (applyUpdates df upd row).getD j .null
      = match upd.lookup (df.columns.getD j "") with
        | some v => v
        | none => row.getD j .null := by
  intro upd
  induction upd with
  | nil => intro row _ _ _ _ j _; rfl
  | cons p rest ih =>
    intro row hndC hndU hkeys hrow j hj
    have hpmem : p.1 ∈ df.columns := mem_of_contains (hkeys p (by simp))
    obtain ⟨jp, hjp1, hjp2, hjp3⟩ := idxOf?_spec df.columns p.1 hpmem
    have hstep : applyUpdates df (p :: rest) row
        = applyUpdates df rest (row.set jp p.2) := by
      show (p :: rest).foldl _ row = _
      rw [List.foldl_cons, hjp1]
      rfl
    have hndU' : nodupB (rest.map Prod.fst) = true := by
      rw [List.map_cons] at hndU
      exact (nodupB_parts hndU).2
    have hnotin : p.1 ∉ rest.map Prod.fst := by
      rw [List.map_cons] at hndU
      exact (nodupB_parts hndU).1
    have hrow' : (row.set jp p.2).length = df.columns.length := by
      rw [List.length_set, hrow]
    rw [hstep, ih (row.set jp p.2) hndC hndU' (fun q hq => hkeys q (by simp [hq]))
      hrow' j hj]
    by_cases hcol : df.columns.getD j "" = p.1
    · have hjj : j = jp := by
        have h1 := idxOf?_self_of_nodup df.columns hndC j hj
        rw [hcol] at h1
        rw [h1] at hjp1
        exact Option.some.inj hjp1
      subst hjj
      have hlk : rest.lookup (df.columns.getD j "") = none :=
        lookup_eq_none_of_not_mem (by rw [hcol]; exact hnotin)
      have hbeq : (df.columns.getD j "" == p.1) = true := by
        rw [beq_iff_eq]
        exact hcol
      have hlk2 : (p :: rest).lookup (df.columns.getD j "") = some p.2 := by
        simp only [List.lookup, hbeq]
      rw [hlk, hlk2, getD_set_self _ _ _ _ (by rw [hrow]; exact hj)]
    · have hjj : j ≠ jp := fun e => hcol (by rw [e, hjp3])
      have hbeq : (df.columns.getD j "" == p.1) = false := by
        rw [beq_eq_false_iff_ne]
        exact hcol
      have hlk2 : (p :: rest).lookup (df.columns.getD j "")
          = rest.lookup (df.columns.getD j "") := by
        simp only [List.lookup, hbeq]
      rw [hlk2, getD_set_ne _ _ _ _ _ (fun e => hjj e.symm)]

theorem dfWF_parts {df : DataFrame} (h : dfWF df = true) :
    (∀ r ∈ df.data, r.length = df.columns.length)
      ∧ df.index.length = df.data.length ∧ nodupB df.columns = true := by
  rw [dfWF, Bool.and_eq_true, Bool.and_eq_true, List.all_eq_true] at h
  refine ⟨fun r hr => ?_, ?_, h.2⟩
  · have := h.1.1 r hr
    rwa [Nat.beq_eq_true_eq] at this
  · have := h.1.2
    rwa [Nat.beq_eq_true_eq] at this

theorem getD_map_lt {α β : Type} (f : α → β) (l : List α) (i : Nat)
    (h : i < l.length) (d : α) (d2 : β) :
    (l.map f).getD i d2 = f (l.getD i d) := by
  induction l generalizing i with
  | nil => simp at h
  | cons a t ih =>
    cases i with
    | zero => rfl
    | succ i' => exact ih i' (by simpa using h)

theorem mapM_eq_map {α β : Type} (g : α → Except Err β) (h : α → β) :
    ∀ l : List α, (∀ x ∈ l, g x = .ok (h x)) → l.mapM g = .ok (l.map h) := by
  intro l
  induction l with
  | nil => intro _; rfl
  | cons a t ih =>
    intro hg
    rw [List.mapM_cons, hg a (by simp), ih (fun x hx => hg x (by simp [hx]))]
    rfl

theorem withNewColumn_ok (df : DataFrame) (n : String)
    (f : List Value → Except Err Value) (refs : List String)
    (g : List Value → Value)
    (hg : ∀ row ∈ df.data, f (refValues df refs row) = .ok (g row)) :
    withNewColumn df n f refs
      = .ok ⟨df.columns ++ [n], df.index, df.data.map (fun row => row ++ [g row])⟩ := by
  rw [withNewColumn,
    mapM_eq_map _ (fun row => row ++ [g row]) _ (fun row hr => by rw [hg row hr]; rfl)]
  rfl

theorem pandasDiv_num (qa qb : ℚ) :
    pandasDiv (.num qa) (.num qb)
      = .ok (if qb = 0 then divValue qa else .num (qa / qb)) := by
  rw [divValue]
  by_cases h0 : qb = 0
  · subst h0
    by_cases h1 : 0 < qa
    · simp [pandasDiv, asNumQ, h1]
    · by_cases h2 : qa < 0 <;> simp [pandasDiv, asNumQ, h1, h2]
  · by_cases h1 : 0 < qa
    · simp [pandasDiv, asNumQ, h0, h1]
    · by_cases h2 : qa < 0 <;> simp [pandasDiv, asNumQ, h0, h1, h2]

theorem pandasAdd_num (x y : ℚ) : pandasAdd (.num x) (.num y) = .ok (.num (x + y)) := rfl

theorem foldlM_add_nums :
    ∀ (l : List Value) (q : ℚ), (∀ v ∈ l, ∃ r, v = .num r) →
    l.foldlM pandasAdd (.num q) = .ok (.num (q + (l.map numOrZero).sum)) := by
  intro l
  induction l with
  | nil =>
    intro q _
    show Except.ok (Value.num q) = _
    simp
  | cons v t ih =>
    intro q hv
    obtain ⟨r, hr⟩ := hv v (by simp)
    subst hr
    rw [List.foldlM_cons, pandasAdd_num]
    show List.foldlM pandasAdd (Value.num (q + r)) t = _
    rw [ih (q + r) (fun w hw => hv w (by simp [hw]))]
    simp [numOrZero]
    ring_nf

theorem dropNulls_sum (vs : List Value) (h : vs.all isNullOrNum = true) :
    ((dropNulls vs).map numOrZero).sum = (vs.map numOrZero).sum
      ∧ ∀ v ∈ dropNulls vs, ∃ r, v = .num r := by
  induction vs with
  | nil => exact ⟨rfl, by simp [dropNulls]⟩
  | cons v t ih =>
    rw [List.all_cons, Bool.and_eq_true] at h
    obtain ⟨ih1, ih2⟩ := ih h.2
    cases v with
    | null =>
      refine ⟨?_, ih2⟩
      show ((dropNulls t).map numOrZero).sum = (List.map numOrZero (.null :: t)).sum
      rw [ih1]
      simp [numOrZero]
    | num q =>
      constructor
      · show (List.map numOrZero (.num q :: dropNulls t)).sum = _
        simp only [List.map_cons, List.sum_cons, ih1]
      · intro w hw
        rcases List.mem_cons.mp hw with h1 | h1
        · exact ⟨q, h1⟩
        · exact ih2 w h1
    | bool b => simp [isNullOrNum] at h
    | inf b => simp [isNullOrNum] at h
    | str s => simp [isNullOrNum] at h

theorem rowSum_nums (vs : List Value) (h : vs.all isNullOrNum = true) :
    rowSum vs = .ok (.num ((vs.map numOrZero).sum)) := by
  obtain ⟨hsum, hnum⟩ := dropNulls_sum vs h
  rw [rowSum]
  cases hd : dropNulls vs with
  | nil =>
    rw [hd] at hsum
    simp at hsum
    rw [← hsum]
  | cons v rest =>
    rw [hd] at hsum hnum
    obtain ⟨r, hr⟩ := hnum v (by simp)
    subst hr
    show List.foldlM pandasAdd (Value.num r) rest = _
    rw [foldlM_add_nums rest r (fun w hw => hnum w (by simp [hw]))]
    simp only [List.map_cons, List.sum_cons] at hsum
    rw [← hsum]
    simp [numOrZero]

theorem rowSum_num_str (q : ℚ) (s : String) :
    rowSum [.num q, .str s] = .error .typeMismatch := rfl

theorem rowSum_str_str (a b : String) :
    rowSum [.str a, .str b] = .ok (.str (a ++ b)) := rfl

theorem zip_map_fst_snd {α β : Type} :
    ∀ l : List (α × β), (l.map Prod.fst).zip (l.map Prod.snd) = l := by
  intro l
  induction l with
  | nil => rfl
  | cons p t ih => simp [ih]

theorem isNumV_num {v : Value} (h : isNumV v = true) : ∃ q, v = .num q := by
  cases v with
  | num q => exact ⟨q, rfl⟩
  | null => simp [isNumV] at h
  | bool b => simp [isNumV] at h
  | inf b => simp [isNumV] at h
  | str s => simp [isNumV] at h

unseal Rat.add Rat.sub Rat.mul Rat.inv

/-! ## Claims -/

/-- Claim C1: for every Table whose cell values are JSON-representable
(no infinities, printable-ASCII strings, numbers that survive the 10-digit
decimal printing exactly), decoding the encoded wire text gives back an
equal Table: `decode_json (to_json df) = ok df`. -/
theorem decode_encode_roundtrip (df : DataFrame) (h : dfRep df = true) :
    decode_json (to_json df) = .ok df :=
  decode_json_parse_ok (parseSplit_renderChars df h)

theorem decode_encode_roundtrip_witness :
    dfRep dfW1 = true ∧ decode_json (to_json dfW1) = .ok dfW1 :=
  ⟨by decide, decode_encode_roundtrip dfW1 (by decide)⟩

/-- Claim C3: `decode_json` first attempts a direct parse; on failure it
replaces escaped quotes and backslashes, strips one wrapping quote layer,
and retries exactly once, failing with DecodeError if that also fails;
both the normal split-JSON text and its once-escaped-and-quoted variant
decode to the same Table. -/
theorem decode_tolerant (df : DataFrame) (h : dfRep df = true) :
    decode_json (to_json df) = .ok df
    ∧ decode_json (quoteWrap (to_json df)) = .ok df
    ∧ (∀ s : String, ∀ d2 : DataFrame, parseSplit s.data = some d2 →
        decode_json s = .ok d2)
    ∧ (∀ s : String, ∀ d2 : DataFrame, parseSplit s.data = none →
        parseSplit (unescapeStrip s.data) = some d2 → decode_json s = .ok d2)
    ∧ (∀ s : String, parseSplit s.data = none →
        parseSplit (unescapeStrip s.data) = none →
        decode_json s = .error .decodeError) :=
  ⟨decode_json_parse_ok (parseSplit_renderChars df h),
   decode_json_quoteWrap df h,
   fun _ _ h1 => decode_json_parse_ok h1,
   fun _ _ h1 h2 => decode_json_retry_ok h1 h2,
   fun _ h1 h2 => decode_json_fail h1 h2⟩

theorem decode_tolerant_witness :
    dfRep dfW3 = true
    ∧ (decode_json (to_json dfW3) = .ok dfW3
      ∧ decode_json (quoteWrap (to_json dfW3)) = .ok dfW3
      ∧ (∀ s : String, ∀ d2 : DataFrame, parseSplit s.data = some d2 →
          decode_json s = .ok d2)
      ∧ (∀ s : String, ∀ d2 : DataFrame, parseSplit s.data = none →
          parseSplit (unescapeStrip s.data) = some d2 → decode_json s = .ok d2)
      ∧ (∀ s : String, parseSplit s.data = none →
          parseSplit (unescapeStrip s.data) = none →
          decode_json s = .error .decodeError)) :=
  ⟨by decide, decode_tolerant dfW3 (by decide)⟩

/-- Claim C4 counterexample: on the table with index labels 0,1, deleting
the row matching id=1 returns wire text whose index field is [1] — the
surviving original label — and not [0], i.e. not `0..N-1` for the N=1
remaining row. -/
theorem delete_index_labels_cex :
    (delete_data (to_json dfC4) [("id", Value.num 1)]).map
        (fun s => (read_json s).map DataFrame.index) = .ok (some [1])
    ∧ ([1] : List Int) ≠ [0] := by
  constructor
  · decide
  · decide

/-- Claim C4 (amended): `to_json` writes columns in Table order, one data
row per record in Table order, and the DataFrame's current index labels
as they are; `delete_data` keeps each surviving row's original label (it
does not renumber to `0..N-1`), so the output text of a delete carries
the surviving original labels. -/
theorem delete_index_labels (df : DataFrame) (ident : List (String × Value))
    (hid : (ident.map Prod.fst).all (fun c => df.columns.contains c) = true)
    (hmatch : df.data.any (rowMatches df ident) = true) :
    ∃ df', deleteDataCore df ident = .ok df'
      ∧ df'.columns = df.columns
      ∧ df'.index.zip df'.data
          = (df.index.zip df.data).filter (fun q => !(rowMatches df ident q.2))
      ∧ (dfRep df = true → read_json (to_json df') = some df') := by
  rw [deleteDataCore, if_neg (by rw [hid]; decide), if_neg (by rw [hmatch]; decide)]
  refine ⟨_, rfl, rfl, zip_map_fst_snd _, ?_⟩
  intro hrep
  apply read_json_to_json
  obtain ⟨hrepS, hrepV⟩ := dfRep_parts hrep
  rw [dfRep, Bool.and_eq_true, List.all_eq_true, List.all_eq_true]
  constructor
  · exact fun c hc => hrepS c hc
  · intro r hr
    rw [List.all_eq_true]
    intro v hv
    obtain ⟨q, hq1, hq2⟩ := List.mem_map.mp hr
    have hqz := (List.mem_filter.mp hq1).1
    have hq3 := (List.of_mem_zip hqz).2
    exact hrepV q.2 hq3 v (hq2 ▸ hv)

/-- Claim C2: if the identifier matches k ≥ 1 rows, `edit_data` changes
exactly the `updated_data` fields of exactly those rows; every other field
of every row and every non-matching row is identical to the input; if no
row matches it fails with RowNotFound. -/
theorem edit_row_scope (df : DataFrame) (ident upd : List (String × Value))
    (hwf : dfWF df = true)
    (hid : (ident.map Prod.fst).all (fun c => df.columns.contains c) = true)
    (hup : (upd.map Prod.fst).all (fun c => df.columns.contains c) = true)
    (hndU : nodupB (upd.map Prod.fst) = true) :
    (df.data.any (rowMatches df ident) = false →
      editDataCore df ident upd = .error .rowNotFound)
    ∧ (df.data.any (rowMatches df ident) = true →
      ∃ df', editDataCore df ident upd = .ok df'
        ∧ df'.columns = df.columns ∧ df'.index = df.index
        ∧ df'.data.length = df.data.length
        ∧ ∀ i, i < df.data.length →
          (rowMatches df ident (df.data.getD i []) = false →
            df'.data.getD i [] = df.data.getD i [])
          ∧ (rowMatches df ident (df.data.getD i []) = true →
            ∀ j, j < df.columns.length →
              (df'.data.getD i []).getD j .null
                = match upd.lookup (df.columns.getD j "") with
                  | some v => v
                  | none => (df.data.getD i []).getD j .null)) := by
  obtain ⟨hlen, hidx, hnd⟩ := dfWF_parts hwf
  constructor
  · intro hany
    rw [editDataCore, if_neg (by rw [hid]; decide), if_neg (by rw [hup]; decide),
      if_pos (by rw [hany]; decide)]
  · intro hany
    rw [editDataCore, if_neg (by rw [hid]; decide), if_neg (by rw [hup]; decide),
      if_neg (by rw [hany]; decide)]
    refine ⟨_, rfl, rfl, rfl, by simp, ?_⟩
    intro i hi
    constructor
    · intro hm
      rw [getD_map_lt _ _ i hi [] [], if_neg (by rw [hm]; decide)]
    · intro hm j hj
      rw [getD_map_lt _ _ i hi [] [], if_pos hm]
      exact applyUpdates_getD df upd (df.data.getD i []) hnd hndU
        (fun p hp => by
          rw [List.all_eq_true] at hup
          exact hup p.1 (List.mem_map_of_mem Prod.fst hp))
        (hlen _ (getD_mem _ _ _ hi)) j hj

theorem edit_row_scope_witness :
    dfWF dfW2 = true
    ∧ ((identW2.map Prod.fst).all (fun c => dfW2.columns.contains c) = true)
    ∧ ((updW2.map Prod.fst).all (fun c => dfW2.columns.contains c) = true)
    ∧ nodupB (updW2.map Prod.fst) = true
    ∧ ((dfW2.data.any (rowMatches dfW2 identW2) = false →
        editDataCore dfW2 identW2 updW2 = .error .rowNotFound)
      ∧ (dfW2.data.any (rowMatches dfW2 identW2) = true →
        ∃ df', editDataCore dfW2 identW2 updW2 = .ok df'
          ∧ df'.columns = dfW2.columns ∧ df'.index = dfW2.index
          ∧ df'.data.length = dfW2.data.length
          ∧ ∀ i, i < dfW2.data.length →
            (rowMatches dfW2 identW2 (dfW2.data.getD i []) = false →
              df'.data.getD i [] = dfW2.data.getD i [])
            ∧ (rowMatches dfW2 identW2 (dfW2.data.getD i []) = true →
              ∀ j, j < dfW2.columns.length →
                (df'.data.getD i []).getD j .null
                  = match updW2.lookup (dfW2.columns.getD j "") with
                    | some v => v
                    | none => (dfW2.data.getD i []).getD j .null))) :=
  ⟨by decide, by decide, by decide, by decide,
   edit_row_scope dfW2 identW2 updW2 (by decide) (by decide) (by decide) (by decide)⟩

/-- Claim C9: `add_data` appends exactly one record after all existing
records, leaving prior rows and the column order unchanged; the appended
record takes `row_data`'s values and null for every omitted column; an
unknown key fails with ColumnNotFound. -/
theorem add_row_appends (df : DataFrame) (row_data : List (String × Value)) :
    ((row_data.map Prod.fst).all (fun c => df.columns.contains c) = false →
      addDataCore df row_data
        = .error (.columnNotFound (invalidCols df (row_data.map Prod.fst))))
    ∧ ((row_data.map Prod.fst).all (fun c => df.columns.contains c) = true →
      ∃ df', addDataCore df row_data = .ok df'
        ∧ df'.columns = df.columns
        ∧ df'.data.dropLast = df.data
        ∧ df'.data.getLast?
            = some (df.columns.map (fun c => (row_data.lookup c).getD .null))
        ∧ df'.data.length = df.data.length + 1) := by
  constructor
  · intro hbad
    rw [addDataCore, if_pos (by rw [hbad]; decide)]
  · intro hok
    rw [addDataCore, if_neg (by rw [hok]; decide)]
    exact ⟨_, rfl, rfl, List.dropLast_concat, by rw [List.getLast?_concat], by simp⟩

theorem add_row_appends_witness :
    ((rowW9.map Prod.fst).all (fun c => dfW9.columns.contains c) = true)
    ∧ (((rowW9.map Prod.fst).all (fun c => dfW9.columns.contains c) = false →
        addDataCore dfW9 rowW9
          = .error (.columnNotFound (invalidCols dfW9 (rowW9.map Prod.fst))))
      ∧ ((rowW9.map Prod.fst).all (fun c => dfW9.columns.contains c) = true →
        ∃ df', addDataCore dfW9 rowW9 = .ok df'
          ∧ df'.columns = dfW9.columns
          ∧ df'.data.dropLast = dfW9.data
          ∧ df'.data.getLast?
              = some (dfW9.columns.map (fun c => (rowW9.lookup c).getD .null))
          ∧ df'.data.length = dfW9.data.length + 1)) :=
  ⟨by decide, add_row_appends dfW9 rowW9⟩

/-- Claim C5: with numeric reference columns, `add_column` with formula
divide never raises on a zero denominator: a row whose second reference
value is exactly zero gets a signed infinity (sign of the numerator), and
NaN (null) when both operands are zero — `divValue`. -/
theorem divide_by_zero_infinity (df : DataFrame) (a b n : String) (p : Params)
    (hwf : dfWF df = true)
    (hrefs : ([a, b].all fun c => df.columns.contains c) = true)
    (hn : df.columns.contains n = false)
    (hnum : (df.data.all fun row =>
        isNumV (cellAt df row a) && isNumV (cellAt df row b)) = true) :
    ∃ df', add_column df n "divide" [a, b] p = .ok df'
      ∧ df'.columns = df.columns ++ [n]
      ∧ df'.data.length = df.data.length
      ∧ ∀ i, i < df.data.length →
        ∀ qa, cellAt df (df.data.getD i []) a = .num qa →
          cellAt df (df.data.getD i []) b = .num 0 →
          (df'.data.getD i []).getD df.columns.length .null = divValue qa := by
  obtain ⟨hlen, _, _⟩ := dfWF_parts hwf
  rw [List.all_eq_true] at hnum
  rw [add_column, if_neg (by rw [hrefs]; decide), if_neg (by rw [hn]; decide),
    if_neg (by decide), if_neg (by decide), if_neg (by decide),
    if_pos (by decide), if_neg (by simp),
    withNewColumn_ok df n _ [a, b]
      (fun row => match cellAt df row a, cellAt df row b with
        | .num qa, .num qb => if qb = 0 then divValue qa else .num (qa / qb)
        | _, _ => .null)
      ?hg]
  case hg =>
    intro row hrow
    have hb2 := hnum row hrow
    rw [Bool.and_eq_true] at hb2
    obtain ⟨qa, hqa⟩ := isNumV_num hb2.1
    obtain ⟨qb, hqb⟩ := isNumV_num hb2.2
    show pandasDiv (cellAt df row a) (cellAt df row b)
      = Except.ok (match cellAt df row a, cellAt df row b with
          | Value.num qa, Value.num qb =>
            if qb = 0 then divValue qa else Value.num (qa / qb)
          | _, _ => Value.null)
    rw [hqa, hqb, pandasDiv_num]
  refine ⟨_, rfl, rfl, by simp, ?_⟩
  intro i hi qa hqa hqb
  rw [getD_map_lt _ _ i hi [] []]
  have hrl : (df.data.getD i []).length = df.columns.length :=
    hlen _ (getD_mem _ _ _ hi)
  rw [← hrl, getD_concat_self, hqa, hqb]
  simp

theorem divide_by_zero_infinity_witness :
    dfWF dfW5 = true
    ∧ (["a", "b"].all fun c => dfW5.columns.contains c) = true
    ∧ dfW5.columns.contains "r" = false
    ∧ (dfW5.data.all fun row =>
        isNumV (cellAt dfW5 row "a") && isNumV (cellAt dfW5 row "b")) = true
    ∧ divValue 10 = Value.inf false
    ∧ (∃ df', add_column dfW5 "r" "divide" ["a", "b"] noParams = .ok df'
      ∧ df'.columns = dfW5.columns ++ ["r"]
      ∧ df'.data.length = dfW5.data.length
      ∧ ∀ i, i < dfW5.data.length →
        ∀ qa, cellAt dfW5 (dfW5.data.getD i []) "a" = .num qa →
          cellAt dfW5 (dfW5.data.getD i []) "b" = .num 0 →
          (df'.data.getD i []).getD dfW5.columns.length .null = divValue qa) :=
  ⟨by decide, by decide, by decide, by decide, by decide,
   divide_by_zero_infinity dfW5 "a" "b" "r" noParams
     (by decide) (by decide) (by decide) (by decide)⟩

/-- Claim C6 counterexample: `transform_column` has no titleCase branch —
requesting the titleCase transformation on a table that has the column
raises UnsupportedOperation instead of title-casing anything. -/
theorem titleCase_unsupported_cex :
    transform_column tdNone dfC6 "name" "titleCase" noParams
      = .error (.unsupportedOperation "titleCase") := by
  decide

/-- Claim C6 (amended): `transform_column` does not support titleCase; the
recognized transformations are exactly uppercase, lowercase, round and
format_date, and any other keyword — titleCase included — fails with
UnsupportedOperation naming the keyword. -/
theorem titleCase_unsupported (td : String → Value → Except Err String)
    (df : DataFrame) (col t : String) (p : Params)
    (hcol : df.columns.contains col = true)
    (h1 : (t == "uppercase") = false) (h2 : (t == "lowercase") = false)
    (h3 : (t == "round") = false) (h4 : (t == "format_date") = false) :
    transform_column td df col t p = .error (.unsupportedOperation t) := by
  simp only [transform_column]
  rw [if_neg (by rw [hcol]; decide), if_neg (by rw [h1]; decide),
    if_neg (by rw [h2]; decide), if_neg (by rw [h3]; decide),
    if_neg (by rw [h4]; decide)]

theorem titleCase_unsupported_witness :
    dfW6.columns.contains "name" = true
    ∧ (("titleCase" == "uppercase") = false)
    ∧ (("titleCase" == "lowercase") = false)
    ∧ (("titleCase" == "round") = false)
    ∧ (("titleCase" == "format_date") = false)
    ∧ transform_column tdNone dfW6 "name" "titleCase" noParams
        = .error (.unsupportedOperation "titleCase") :=
  ⟨by decide, by decide, by decide, by decide, by decide,
   titleCase_unsupported tdNone dfW6 "name" "titleCase" noParams
     (by decide) (by decide) (by decide) (by decide) (by decide)⟩

/-- Claim C7 counterexample: a row whose reference cells are both null
sums to 0 with no type error — `sum(axis=1)` silently coerces missing
values to 0 instead of propagating a type error. -/
theorem sum_null_coercion_cex :
    add_column dfC7 "s" "sum" ["a", "b"] noParams
      = .ok ⟨["a", "b", "s"], [0], [[.null, .null, .num 0]]⟩ := by
  decide

/-- Claim C7 (amended): `add_column` with formula sum adds the numeric
values row-wise with nulls skipped (contributing 0, `numOrZero`); a row
mixing a number with a string fails with a type error, and a row of two
strings concatenates them instead of raising. -/
theorem sum_semantics (df : DataFrame) (n : String) (refs : List String) (p : Params)
    (hrefs : (refs.all fun c => df.columns.contains c) = true)
    (hn : df.columns.contains n = false)
    (hnum : (df.data.all fun row => (refValues df refs row).all isNullOrNum) = true) :
    add_column df n "sum" refs p
      = .ok ⟨df.columns ++ [n], df.index,
          df.data.map (fun row =>
            row ++ [.num (((refValues df refs row).map numOrZero).sum)])⟩
    ∧ (∀ q s, rowSum [.num q, .str s] = .error .typeMismatch)
    ∧ (∀ x y : String, rowSum [.str x, .str y] = .ok (.str (x ++ y))) := by
  refine ⟨?_, fun q s => rowSum_num_str q s, fun x y => rowSum_str_str x y⟩
  rw [List.all_eq_true] at hnum
  rw [add_column, if_neg (by rw [hrefs]; decide), if_neg (by rw [hn]; decide),
    if_neg (by decide), if_pos (by decide)]
  exact withNewColumn_ok df n rowSum refs
    (fun row => .num (((refValues df refs row).map numOrZero).sum))
    (fun row hrow => rowSum_nums _ (hnum row hrow))

theorem sum_semantics_witness :
    ((["a", "b"].all fun c => dfW7.columns.contains c) = true)
    ∧ dfW7.columns.contains "t" = false
    ∧ (dfW7.data.all fun row => (refValues dfW7 ["a", "b"] row).all isNullOrNum) = true
    ∧ (add_column dfW7 "t" "sum" ["a", "b"] noParams
        = .ok ⟨dfW7.columns ++ ["t"], dfW7.index,
            dfW7.data.map (fun row =>
              row ++ [.num (((refValues dfW7 ["a", "b"] row).map numOrZero).sum)])⟩
      ∧ (∀ q s, rowSum [.num q, .str s] = .error .typeMismatch)
      ∧ (∀ x y : String, rowSum [.str x, .str y] = .ok (.str (x ++ y)))) :=
  ⟨by decide, by decide, by decide,
   sum_semantics dfW7 "t" ["a", "b"] noParams (by decide) (by decide) (by decide)⟩

/-- Claim C8 counterexample: a self-rename (new name equal to old name)
is rejected with ColumnAlreadyExists, not treated as a no-op success. -/
theorem self_rename_collision_cex :
    rename_column dfC8 "a" "a" = .error (.columnAlreadyExists "a") := by
  decide

/-- Claim C8 (amended): renaming a column to any name already present —
including the self-rename case — fails with ColumnAlreadyExists and
returns no table. -/
theorem rename_collision (df : DataFrame) (old_name new_name : String)
    (hold : df.columns.contains old_name = true)
    (hnew : df.columns.contains new_name = true) :
    rename_column df old_name new_name = .error (.columnAlreadyExists new_name) := by
  rw [rename_column, if_neg (by rw [hold]; decide), if_pos hnew]

theorem rename_collision_witness :
    dfW8.columns.contains "a" = true
    ∧ dfW8.columns.contains "b" = true
    ∧ rename_column dfW8 "a" "b" = .error (.columnAlreadyExists "b") :=
  ⟨by decide, by decide, rename_collision dfW8 "a" "b" (by decide) (by decide)⟩

/-- Claim C10: after `transform_column` with uppercase or lowercase every
value in the transformed column is a string: each cell is stringified
(`pyStr`, which renders a null cell as "nan") before the case change, so
a null cell becomes the string "NAN" (uppercase) or "nan" (lowercase)
rather than staying null. -/
theorem case_transform_stringifies (td : String → Value → Except Err String)
    (df : DataFrame) (col : String) (p : Params)
    (hwf : dfWF df = true) (hcol : df.columns.contains col = true) :
    ∃ j, idxOf? df.columns col = some j
      ∧ (∃ df', transform_column td df col "uppercase" p = .ok df'
          ∧ df'.columns = df.columns ∧ df'.index = df.index
          ∧ df'.data.length = df.data.length
          ∧ ∀ i, i < df.data.length →
              (df'.data.getD i []).getD j .null
                = .str (strUpper (pyStr ((df.data.getD i []).getD j .null))))
      ∧ (∃ df', transform_column td df col "lowercase" p = .ok df'
          ∧ df'.columns = df.columns ∧ df'.index = df.index
          ∧ df'.data.length = df.data.length
          ∧ ∀ i, i < df.data.length →
              (df'.data.getD i []).getD j .null
                = .str (strLower (pyStr ((df.data.getD i []).getD j .null))))
      ∧ strUpper (pyStr .null) = "NAN" ∧ strLower (pyStr .null) = "nan" := by
  obtain ⟨hlen, _, _⟩ := dfWF_parts hwf
  obtain ⟨j, hj1, hj2, _⟩ := idxOf?_spec df.columns col (mem_of_contains hcol)
  refine ⟨j, hj1, ?_, ?_, by decide, by decide⟩
  · simp only [transform_column, hj1, Option.getD_some]
    have hup : ∀ row ∈ df.data,
        Except.map (fun v => row.set j v)
          (Except.ok (Value.str (strUpper (pyStr (row.getD j Value.null)))))
        = (Except.ok (row.set j (Value.str (strUpper (pyStr (row.getD j Value.null)))))
            : Except Err (List Value)) :=
      fun row _ => rfl
    rw [if_neg (by rw [hcol]; decide), if_pos (by decide),
      mapM_eq_map
        (fun row => Except.map (fun v => row.set j v)
          (Except.ok (Value.str (strUpper (pyStr (row.getD j Value.null))))))
        (fun row => row.set j (.str (strUpper (pyStr (row.getD j .null)))))
        df.data hup]
    refine ⟨_, rfl, rfl, rfl, by simp, ?_⟩
    intro i hi
    rw [getD_map_lt _ _ i hi [] [], getD_set_self]
    rw [hlen _ (getD_mem _ _ _ hi)]
    exact hj2
  · simp only [transform_column, hj1, Option.getD_some]
    have hlo : ∀ row ∈ df.data,
        Except.map (fun v => row.set j v)
          (Except.ok (Value.str (strLower (pyStr (row.getD j Value.null)))))
        = (Except.ok (row.set j (Value.str (strLower (pyStr (row.getD j Value.null)))))
            : Except Err (List Value)) :=
      fun row _ => rfl
    rw [if_neg (by rw [hcol]; decide), if_neg (by decide), if_pos (by decide),
      mapM_eq_map
        (fun row => Except.map (fun v => row.set j v)
          (Except.ok (Value.str (strLower (pyStr (row.getD j Value.null))))))
        (fun row => row.set j (.str (strLower (pyStr (row.getD j .null)))))
        df.data hlo]
    refine ⟨_, rfl, rfl, rfl, by simp, ?_⟩
    intro i hi
    rw [getD_map_lt _ _ i hi [] [], getD_set_self]
    rw [hlen _ (getD_mem _ _ _ hi)]
    exact hj2

theorem case_transform_stringifies_witness :
    dfWF dfW10 = true
    ∧ dfW10.columns.contains "a" = true
    ∧ (∃ j, idxOf? dfW10.columns "a" = some j
      ∧ (∃ df', transform_column tdNone dfW10 "a" "uppercase" noParams = .ok df'
          ∧ df'.columns = dfW10.columns ∧ df'.index = dfW10.index
          ∧ df'.data.length = dfW10.data.length
          ∧ ∀ i, i < dfW10.data.length →
              (df'.data.getD i []).getD j .null
                = .str (strUpper (pyStr ((dfW10.data.getD i []).getD j .null))))
      ∧ (∃ df', transform_column tdNone dfW10 "a" "lowercase" noParams = .ok df'
          ∧ df'.columns = dfW10.columns ∧ df'.index = dfW10.index
          ∧ df'.data.length = dfW10.data.length
          ∧ ∀ i, i < dfW10.data.length →
              (df'.data.getD i []).getD j .null
                = .str (strLower (pyStr ((dfW10.data.getD i []).getD j .null))))
      ∧ strUpper (pyStr .null) = "NAN" ∧ strLower (pyStr .null) = "nan") :=
  ⟨by decide, by decide,
   case_transform_stringifies tdNone dfW10 "a" noParams (by decide) (by decide)⟩

theorem delete_index_labels_witness :
    ((identW4.map Prod.fst).all (fun c => dfW4.columns.contains c) = true)
    ∧ (dfW4.data.any (rowMatches dfW4 identW4) = true)
    ∧ (∃ df', deleteDataCore dfW4 identW4 = .ok df'
      ∧ df'.columns = dfW4.columns
      ∧ df'.index.zip df'.data
          = (dfW4.index.zip dfW4.data).filter
              (fun q => !(rowMatches dfW4 identW4 q.2))
      ∧ (dfRep dfW4 = true → read_json (to_json df') = some df')) :=
  ⟨by decide, by decide, delete_index_labels dfW4 identW4 (by decide) (by decide)⟩

end GS
